import Mathlib

/-!
Verification development for the zcr-wsn wireless-sensor-network simulator.

The Rust source is embedded shallowly:
* `f32` arithmetic is modelled exactly over `ℚ` (the claims under study are
  about control flow and algebraic structure, not bit-level rounding);
* `glam::Vec2::length` (the Euclidean norm, irrational in general) is
  abstracted as an explicit parameter `vlen : ℚ × ℚ → ℚ` applied to the
  componentwise difference of two positions, exactly where the source
  computes `(a - b).length()`;
* the ambient random generator is made explicit: the per-node Bernoulli
  draws of LEACH become a parameter `draw : ℕ → ℚ`, and the K-Means seed
  sampling becomes a parameter `sample_idx : List ℕ` of sampled indices;
* mutable `Vec`s become `List`s updated with `List.set`; reads use
  `List.getD`. `usize` subtraction is modelled by truncated `Nat`
  subtraction (the alive-count invariant proved below shows the decrement
  never underflows when the cached count is correct).
-/

/-- Position in the deployment area, mirroring `glam::Vec2` (meters). -/
abbrev Pos : Type := ℚ × ℚ

/-- Componentwise difference of two positions, mirroring `Vec2` subtraction. -/
def psub (p q : Pos) : Pos := (p.1 - q.1, p.2 - q.2)

/-- config.rs: width of the deployment area (meters). -/
def DEPLOYMENT_AREA_WIDTH_M : ℚ := 500

/-- config.rs: height of the deployment area (meters). -/
def DEPLOYMENT_AREA_HEIGHT_M : ℚ := 500

/-- config.rs: initial energy of each node (Joules). -/
def INITIAL_NODE_ENERGY_J : ℚ := 2

/-- config.rs: radio electronics energy per bit (J/bit). -/
def ENERGY_PER_BIT_ELECTRONICS_J : ℚ := 5e-8

/-- config.rs: free-space amplifier energy (J/bit/m²). -/
def ENERGY_FREE_SPACE_AMP_J : ℚ := 1e-11

/-- config.rs: multipath amplifier energy (J/bit/m⁴). -/
def ENERGY_MULTIPATH_AMP_J : ℚ := 1.3e-15

/-- config.rs: aggregation energy (J/bit/signal). -/
def ENERGY_AGGREGATION_J : ℚ := 5e-9

/-- config.rs: size of a data packet (bits). -/
def DATA_PACKET_SIZE_BITS : ℚ := 4000

/-- config.rs: distance threshold between free-space and multipath models. -/
def FS_MULTIPATH_THRESHOLD_DISTANCE_M : ℚ := 87.7

/-- node.rs: state of one sensor node. -/
structure Node where
  id : ℕ
  position : Pos
  remaining_energy_j : ℚ
  is_alive : Bool
  is_cluster_head : Bool
  is_eligible_for_ch : Bool
  distance_to_base_station_m : ℚ
  cluster_head_id : Option ℕ
  cluster_member_ids : List ℕ
  deriving Repr, DecidableEq

/-- Default node used as the out-of-bounds fallback of `List.getD`
(every in-range access of the source is performed at an in-range index;
the fallback is never the value actually read in the proved theorems). -/
def dnode : Node :=
  { id := 0, position := (0, 0), remaining_energy_j := 0, is_alive := false,
    is_cluster_head := false, is_eligible_for_ch := false,
    distance_to_base_station_m := 0, cluster_head_id := none,
    cluster_member_ids := [] }

/-- utils.rs `calculate_transmit_energy`: electronics plus amplifier term,
free-space (d²) when `distance_m ≤ threshold`, multipath (d⁴) otherwise. -/
def calculate_transmit_energy (data_size_bits distance_m : ℚ) : ℚ :=
  let transmit_energy_j := data_size_bits * ENERGY_PER_BIT_ELECTRONICS_J
  if distance_m ≤ FS_MULTIPATH_THRESHOLD_DISTANCE_M then
    transmit_energy_j + data_size_bits * ENERGY_FREE_SPACE_AMP_J * distance_m ^ 2
  else
    transmit_energy_j + data_size_bits * ENERGY_MULTIPATH_AMP_J * distance_m ^ 4

/-- utils.rs `calculate_receive_energy`. -/
def calculate_receive_energy (data_size_bits : ℚ) : ℚ :=
  data_size_bits * ENERGY_PER_BIT_ELECTRONICS_J

/-- utils.rs `calculate_aggregation_energy`. -/
def calculate_aggregation_energy (data_size_bits : ℚ) : ℚ :=
  data_size_bits * ENERGY_AGGREGATION_J

/-- utils.rs `reset_node_for_new_round`: clears CH status, assigned CH and
member list. -/
def reset_node_for_new_round (node : Node) : Node :=
  { node with is_cluster_head := false, cluster_head_id := none,
              cluster_member_ids := [] }

/-- simulator.rs `Simulator`: node list, round counter, cached alive count. -/
structure Simulator where
  nodes : List Node
  current_round : ℕ
  alive_node_count : ℕ
  deriving Repr

/-- Number of nodes whose `is_alive` flag is set (the quantity the cached
`alive_node_count` is supposed to equal). -/
def countAlive (nodes : List Node) : ℕ :=
  nodes.countP (fun n => n.is_alive)

/-- In-place update of the node at index `i`, mirroring `nodes[i].f = …`
on a Rust `Vec` (out-of-range writes cannot occur in the source; here they
leave the list unchanged). -/
def updAt (i : ℕ) (f : Node → Node) (nodes : List Node) : List Node :=
  nodes.set i (f (nodes.getD i dnode))

/-- leach.rs `Leach`: protocol state of the baseline rotation election. -/
structure Leach where
  election_threshold : ℚ
  cluster_head_probability : ℚ
  cycle_length_rounds : ℕ
  deriving Repr

/-- leach.rs `Leach::new`: `(1.0 / p) as usize` is the floor of `1/p`
(truncating cast of a nonnegative value). -/
def Leach.new (cluster_head_probability : ℚ) : Leach :=
  { election_threshold := 0,
    cluster_head_probability,
    cycle_length_rounds := (⌊(1 : ℚ) / cluster_head_probability⌋).toNat }

/-- leach.rs `Leach::update_election_threshold`:
`T = (p / (1 - p·r_mod)).min(1.0)`.  In IEEE f32, when the denominator is
zero and `p ≥ 0` the quotient is `+∞` (or NaN for `p = 0`) and `.min(1.0)`
yields `1.0`; rational division by zero yields `0`, so that case is made
explicit here.  (Under `p ∈ (0,1]` the denominator is proved positive
below, so the branch is never taken.) -/
def Leach.update_election_threshold (l : Leach) (current_round : ℕ) : Leach :=
  let r_mod : ℚ := ((current_round % l.cycle_length_rounds : ℕ) : ℚ)
  let denom : ℚ := 1 - l.cluster_head_probability * r_mod
  { l with election_threshold :=
      if denom = 0 then 1 else min (l.cluster_head_probability / denom) 1 }

/-- State carried through the per-node loop of leach.rs `run_round` phase 1
(nodes, cached alive count, the `selected_cluster_head_ids` accumulator). -/
structure LeachLoopSt where
  nodes : List Node
  alive_node_count : ℕ
  selected : List ℕ
  deriving Repr

/-- The eligibility reset of leach.rs `run_round` phase 1: at the start of
each new cycle (`current_round % cycle_length == 0`) every node becomes
eligible again. -/
def leachEligReset (cycle_reset : Bool) (n : Node) : Node :=
  if cycle_reset then { n with is_eligible_for_ch := true } else n

/-- One iteration of leach.rs `run_round` phase 1 at index `node_id`:
reset transients, reset eligibility at a cycle boundary, mark a depleted
node dead (decrementing the cached count) and skip it, otherwise run the
Bernoulli election (`draw node_id` models `rng.random::<f32>()`). -/
def leachPhase1Step (l : Leach) (cycle_reset : Bool) (draw : ℕ → ℚ)
    (st : LeachLoopSt) (node_id : ℕ) : LeachLoopSt :=
  let n0 := st.nodes.getD node_id dnode
  let n1 := reset_node_for_new_round n0
  let n2 := leachEligReset cycle_reset n1
  if n2.is_alive = true ∧ n2.remaining_energy_j ≤ 0 then
    { nodes := st.nodes.set node_id { n2 with is_alive := false },
      alive_node_count := st.alive_node_count - 1,
      selected := st.selected }
  else if draw node_id < l.election_threshold ∧ n2.is_alive = true ∧
      n2.is_eligible_for_ch = true then
    { nodes := st.nodes.set node_id
        { n2 with is_cluster_head := true, is_eligible_for_ch := false },
      alive_node_count := st.alive_node_count,
      selected := st.selected ++ [node_id] }
  else
    { nodes := st.nodes.set node_id n2,
      alive_node_count := st.alive_node_count,
      selected := st.selected }

/-- The nearest-CH scan of leach.rs `form_clusters`: fold with
`min_distance_m` starting at `+∞` and `nearest_ch_id` at `None`; since
every computed distance is finite, the running state is the `Option` of
the best `(ch_id, distance)` pair seen so far, updated on strict `<`. -/
def nearest_ch (vlen : Pos → ℚ) (nodes : List Node) (position : Pos)
    (cluster_head_ids : List ℕ) : Option (ℕ × ℚ) :=
  cluster_head_ids.foldl (fun acc ch_id =>
    let distance := vlen (psub position (nodes.getD ch_id dnode).position)
    match acc with
    | none => some (ch_id, distance)
    | some (best, min_distance_m) =>
        if distance < min_distance_m then some (ch_id, distance)
        else some (best, min_distance_m)) none

/-- One iteration of leach.rs `form_clusters` at index `node_id`: an alive
non-CH node joins the nearest CH, the CH records the member, and the member
pays the transmit cost for that distance. -/
def leachFormStep (vlen : Pos → ℚ) (cluster_head_ids : List ℕ)
    (nodes : List Node) (node_id : ℕ) : List Node :=
  let n := nodes.getD node_id dnode
  if n.is_alive = true ∧ n.is_cluster_head = false then
    match nearest_ch vlen nodes n.position cluster_head_ids with
    | some (ch_id, min_distance_m) =>
        let nodes1 := updAt node_id
          (fun m => { m with cluster_head_id := some ch_id }) nodes
        let nodes2 := updAt ch_id
          (fun c => { c with cluster_member_ids := c.cluster_member_ids ++ [node_id] })
          nodes1
        updAt node_id
          (fun m => { m with remaining_energy_j := m.remaining_energy_j -
            calculate_transmit_energy DATA_PACKET_SIZE_BITS min_distance_m })
          nodes2
    | none => nodes
  else nodes

/-- leach.rs `Leach::form_clusters`: loop over all node indices. -/
def Leach.form_clusters (vlen : Pos → ℚ) (nodes : List Node)
    (cluster_head_ids : List ℕ) : List Node :=
  (List.range nodes.length).foldl (leachFormStep vlen cluster_head_ids) nodes

/-- One iteration of leach.rs `run_round` phase 3 for cluster head `ch_id`:
a still-alive CH pays (receive + aggregation) × member count, then the
transmit cost to the base station. -/
def leachPhase3Step (nodes : List Node) (ch_id : ℕ) : List Node :=
  let ch_node := nodes.getD ch_id dnode
  if ch_node.is_alive = false then nodes
  else
    let member_count : ℚ := (ch_node.cluster_member_ids.length : ℚ)
    let nodes1 := updAt ch_id (fun c =>
      { c with remaining_energy_j := c.remaining_energy_j -
          (calculate_receive_energy DATA_PACKET_SIZE_BITS +
            calculate_aggregation_energy DATA_PACKET_SIZE_BITS) * member_count })
      nodes
    updAt ch_id (fun c =>
      { c with remaining_energy_j := c.remaining_energy_j -
          (calculate_transmit_energy DATA_PACKET_SIZE_BITS
            c.distance_to_base_station_m) })
      nodes1

/-- leach.rs `Leach::run_round`: threshold update, phase 1 loop, cluster
formation, cluster-head dissipation.  Returns the updated protocol state
and simulator. -/
def Leach.run_round (l : Leach) (vlen : Pos → ℚ) (draw : ℕ → ℚ)
    (simulator : Simulator) : Leach × Simulator :=
  let l1 := l.update_election_threshold simulator.current_round
  let cycle_reset : Bool :=
    decide (simulator.current_round % l1.cycle_length_rounds = 0)
  let st0 : LeachLoopSt :=
    { nodes := simulator.nodes, alive_node_count := simulator.alive_node_count,
      selected := [] }
  let st1 := (List.range simulator.nodes.length).foldl
    (leachPhase1Step l1 cycle_reset draw) st0
  let nodes2 := Leach.form_clusters vlen st1.nodes st1.selected
  let nodes3 := st1.selected.foldl leachPhase3Step nodes2
  (l1, { simulator with nodes := nodes3,
                        alive_node_count := st1.alive_node_count })

/-- simulator.rs `Simulator::update` specialised to LEACH: increment the
round counter, then run one round. -/
def Simulator.update_leach (simulator : Simulator) (l : Leach)
    (vlen : Pos → ℚ) (draw : ℕ → ℚ) : Leach × Simulator :=
  l.run_round vlen draw { simulator with current_round := simulator.current_round + 1 }

/-- clustering.rs `MAX_ITER`. -/
def MAX_ITER : ℕ := 100

/-- clustering.rs `EPS` (convergence threshold). -/
def EPS : ℚ := 1e-4

/-- Componentwise sum of two positions (`Vec2` addition). -/
def padd (p q : Pos) : Pos := (p.1 + q.1, p.2 + q.2)

/-- Division of a summed position by a point count (`sum / count as f32`). -/
def pdivNat (p : Pos) (count : ℕ) : Pos := (p.1 / (count : ℚ), p.2 / (count : ℚ))

/-- clustering.rs `KMeans`: cluster count, centroid positions, per-node
cluster assignment. -/
structure KMeans where
  n_clusters : ℕ
  centroids : List Pos
  clusters : List ℕ
  deriving Repr

/-- clustering.rs `KMeans::new`. -/
def KMeans.new (n_clusters : ℕ) : KMeans :=
  { n_clusters, centroids := [], clusters := [] }

/-- clustering.rs `KMeans::update_centroids`: accumulate position sums and
counts per cluster, then set each centroid with a nonzero count to the mean
position; returns the new state together with the previous centroids. -/
def KMeans.update_centroids (km : KMeans) (wsn : List Node) :
    KMeans × List Pos :=
  let accum0 : List (Pos × ℕ) := List.replicate km.n_clusters ((0, 0), 0)
  let previous_centroids := km.centroids
  let accum := km.clusters.enum.foldl (fun acc p =>
    let cur := acc.getD p.2 ((0, 0), 0)
    acc.set p.2 (padd cur.1 (wsn.getD p.1 dnode).position, cur.2 + 1)) accum0
  let centroids := accum.enum.foldl (fun cs q =>
    if q.2.2 > 0 then cs.set q.1 (pdivNat q.2.1 q.2.2) else cs) km.centroids
  ({ km with centroids := centroids }, previous_centroids)

/-- The assignment scan of clustering.rs `KMeans::fit` for one node:
`min_dist` starts at `+∞` (modelled by the `Option` being `none`), and
`clusters[i]` is overwritten on every strict improvement, so it keeps its
previous value `prev` when the centroid list is empty. -/
def nearestCentroidIdx (vlen : Pos → ℚ) (centroids : List Pos)
    (position : Pos) (prev : ℕ) : ℕ :=
  (centroids.enum.foldl (fun acc p =>
    let dist := vlen (psub position p.2)
    match acc.1 with
    | none => (some dist, p.1)
    | some min_dist =>
        if dist < min_dist then (some dist, p.1) else acc) ((none : Option ℚ), prev)).2

/-- One assignment step of clustering.rs `KMeans::fit`: recompute the
cluster index of every node against the current centroids. -/
def kmeansAssign (vlen : Pos → ℚ) (wsn : List Node) (km : KMeans) : KMeans :=
  { km with clusters := (List.range wsn.length).map (fun i =>
      nearestCentroidIdx vlen km.centroids (wsn.getD i dnode).position
        (km.clusters.getD i 0)) }

/-- The iteration loop of clustering.rs `KMeans::fit`, with explicit fuel
(the source runs at most `MAX_ITER` iterations, breaking early once the
maximum centroid displacement drops below `EPS`). -/
def kmeansLoop (vlen : Pos → ℚ) (wsn : List Node) : ℕ → KMeans → KMeans
  | 0, km => km
  | fuel + 1, km =>
    let km1 := kmeansAssign vlen wsn km
    let upd := km1.update_centroids wsn
    let max_shift := (upd.2.zip upd.1.centroids).foldl
      (fun m ab => max m (vlen (psub ab.1 ab.2))) 0
    if max_shift < EPS then upd.1 else kmeansLoop vlen wsn fuel upd.1

/-- clustering.rs `KMeans::fit`: seed the centroids with the positions of
the sampled node indices (`sample_idx` models `rand::seq::index::sample`,
which requires `n_clusters ≤ wsn.len()`), zero the assignments, iterate. -/
def KMeans.fit (km : KMeans) (vlen : Pos → ℚ) (sample_idx : List ℕ)
    (wsn : List Node) : KMeans :=
  let km1 := { km with
    centroids := sample_idx.map (fun x => (wsn.getD x dnode).position),
    clusters := List.replicate wsn.length 0 }
  kmeansLoop vlen wsn MAX_ITER km1

/-- zcr.rs: the literal `707.0` dividing the distance-to-centroid penalty
(source comment: `≈ sqrt(500² + 500²)`). -/
def zcrDiagonalNormalizer : ℚ := 707

/-- The candidate score of zcr.rs `run_round`:
normalized remaining energy minus normalized distance to the centroid. -/
def zcr_candidate_score (vlen : Pos → ℚ) (node : Node) (centroid : Pos) : ℚ :=
  let energy_score := node.remaining_energy_j / INITIAL_NODE_ENERGY_J
  let distance_to_centroid := vlen (psub node.position centroid)
  let distance_penalty := distance_to_centroid / zcrDiagonalNormalizer
  energy_score - distance_penalty

/-- zcr.rs `Zcr`: protocol state.  `zone_far`/`zone_near` are
`zone_cluster_heads[0]` and `zone_cluster_heads[1]` of the source. -/
structure Zcr where
  num_cluster_heads : ℕ
  cluster_head_probability : ℚ
  zone_far : List ℕ
  zone_near : List ℕ
  deriving Repr

/-- zcr.rs `Zcr::new`. -/
def Zcr.new (cluster_head_probability : ℚ) : Zcr :=
  { num_cluster_heads := 0, cluster_head_probability,
    zone_far := [], zone_near := [] }

/-- State carried through the CH-selection loop of zcr.rs `run_round`
(`best_scores` starts at `f32::NEG_INFINITY`, modelled by `⊥ : WithBot ℚ`). -/
structure ZcrSelSt where
  nodes : List Node
  alive_node_count : ℕ
  best_scores : List (WithBot ℚ)
  selected : List (Option ℕ)

/-- One iteration of the CH-selection loop of zcr.rs `run_round` on the
enumerated pair `(node_id, cluster_idx)`: reset transients, kill a depleted
node (decrementing the cached count) and skip it, skip dead nodes, else
compare the candidate score against the best score of the node's cluster
with strict `>`. -/
def zcrSelStep (vlen : Pos → ℚ) (centroids : List Pos) (st : ZcrSelSt)
    (p : ℕ × ℕ) : ZcrSelSt :=
  let node_id := p.1
  let cluster_idx := p.2
  let n1 := reset_node_for_new_round (st.nodes.getD node_id dnode)
  if n1.is_alive = true ∧ n1.remaining_energy_j ≤ 0 then
    { st with nodes := st.nodes.set node_id { n1 with is_alive := false },
              alive_node_count := st.alive_node_count - 1 }
  else if n1.is_alive = false then
    { st with nodes := st.nodes.set node_id n1 }
  else
    let score := zcr_candidate_score vlen n1 (centroids.getD cluster_idx (0, 0))
    if (score : WithBot ℚ) > st.best_scores.getD cluster_idx ⊥ then
      { st with nodes := st.nodes.set node_id n1,
                best_scores := st.best_scores.set cluster_idx (score : WithBot ℚ),
                selected := st.selected.set cluster_idx (some node_id) }
    else
      { st with nodes := st.nodes.set node_id n1 }

/-- The whole CH-selection loop of zcr.rs `run_round`: fold the step over
the enumerated cluster assignments, starting from fresh score/selection
arrays of length `k`. -/
def zcrSelect (vlen : Pos → ℚ) (centroids : List Pos) (assignments : List ℕ)
    (nodes : List Node) (alive_node_count : ℕ) (k : ℕ) : ZcrSelSt :=
  assignments.enum.foldl (zcrSelStep vlen centroids)
    { nodes := nodes, alive_node_count := alive_node_count,
      best_scores := List.replicate k ⊥, selected := List.replicate k none }

/-- One iteration of zcr.rs `Zcr::assign_zones` for a selected CH id:
near zone iff `distance_to_bs ≤ threshold`, and the CH flag is set. -/
def zcrZoneStep (acc : Zcr × List Node) (ch_id : ℕ) : Zcr × List Node :=
  let distance_to_bs := (acc.2.getD ch_id dnode).distance_to_base_station_m
  let z1 :=
    if distance_to_bs ≤ FS_MULTIPATH_THRESHOLD_DISTANCE_M then
      { acc.1 with zone_near := acc.1.zone_near ++ [ch_id] }
    else
      { acc.1 with zone_far := acc.1.zone_far ++ [ch_id] }
  (z1, updAt ch_id (fun n => { n with is_cluster_head := true }) acc.2)

/-- zcr.rs `Zcr::assign_zones`: clear both buckets, then process every
`Some` entry of the selection array in order. -/
def Zcr.assign_zones (z : Zcr) (selected_cluster_head_ids : List (Option ℕ))
    (nodes : List Node) : Zcr × List Node :=
  (selected_cluster_head_ids.filterMap id).foldl zcrZoneStep
    ({ z with zone_far := [], zone_near := [] }, nodes)

/-- One iteration of zcr.rs `Zcr::form_clusters` on the pair
`(node_id, cluster_idx)`: an alive non-CH node joins its cluster's CH (if
one was selected), the CH records the member, and the member pays the
transmit cost for the distance to its CH. -/
def zcrFormStep (vlen : Pos → ℚ) (selected_cluster_head_ids : List (Option ℕ))
    (nodes : List Node) (p : ℕ × ℕ) : List Node :=
  let node_id := p.1
  let cluster_idx := p.2
  let n := nodes.getD node_id dnode
  if n.is_alive = false ∨ n.is_cluster_head = true then nodes
  else
    match selected_cluster_head_ids.getD cluster_idx none with
    | some ch_id =>
        let nodes1 := updAt node_id
          (fun m => { m with cluster_head_id := some ch_id }) nodes
        let nodes2 := updAt ch_id
          (fun c => { c with cluster_member_ids := c.cluster_member_ids ++ [node_id] })
          nodes1
        let distance_to_ch := vlen (psub (nodes2.getD node_id dnode).position
          (nodes2.getD ch_id dnode).position)
        updAt node_id
          (fun m => { m with remaining_energy_j := m.remaining_energy_j -
            calculate_transmit_energy DATA_PACKET_SIZE_BITS distance_to_ch })
          nodes2
    | none => nodes

/-- zcr.rs `Zcr::form_clusters`: fold over the enumerated assignments. -/
def Zcr.form_clusters (vlen : Pos → ℚ)
    (selected_cluster_head_ids : List (Option ℕ)) (nodes : List Node)
    (cluster_assignments : List ℕ) : List Node :=
  cluster_assignments.enum.foldl (zcrFormStep vlen selected_cluster_head_ids)
    nodes

/-- The nearest-near-zone-CH scan of zcr.rs
`dissipate_cluster_head_energy` (same `+∞`-seeded strict-`<` fold shape as
`nearest_ch`). -/
def find_nearest_near (vlen : Pos → ℚ) (nodes : List Node) (far_ch_id : ℕ)
    (zone_near : List ℕ) : Option (ℕ × ℚ) :=
  zone_near.foldl (fun acc near_ch_id =>
    let distance := vlen (psub (nodes.getD far_ch_id dnode).position
      (nodes.getD near_ch_id dnode).position)
    match acc with
    | none => some (near_ch_id, distance)
    | some (best, min_relay_distance) =>
        if distance < min_relay_distance then some (near_ch_id, distance)
        else some (best, min_relay_distance)) none

/-- The far-zone branch of zcr.rs `dissipate_cluster_head_energy` for one
far CH: always pay (receive + aggregation) × member count; then relay via
the nearest near-zone CH when it is strictly closer than the base station
(the near CH additionally pays receive + aggregation), else transmit
directly to the base station. -/
def zcrFarStep (vlen : Pos → ℚ) (zone_near : List ℕ) (nodes : List Node)
    (far_ch_id : ℕ) : List Node :=
  let best := find_nearest_near vlen nodes far_ch_id zone_near
  let member_count : ℚ :=
    ((nodes.getD far_ch_id dnode).cluster_member_ids.length : ℚ)
  let nodes1 := updAt far_ch_id (fun c =>
    { c with remaining_energy_j := c.remaining_energy_j -
        (calculate_receive_energy DATA_PACKET_SIZE_BITS +
          calculate_aggregation_energy DATA_PACKET_SIZE_BITS) * member_count })
    nodes
  match best with
  | some (near_ch_id, min_relay_distance) =>
      if min_relay_distance <
          (nodes1.getD far_ch_id dnode).distance_to_base_station_m then
        let nodes2 := updAt far_ch_id (fun c =>
          { c with remaining_energy_j := c.remaining_energy_j -
              (calculate_transmit_energy DATA_PACKET_SIZE_BITS
                min_relay_distance) }) nodes1
        updAt near_ch_id (fun c =>
          { c with remaining_energy_j := c.remaining_energy_j -
              (calculate_receive_energy DATA_PACKET_SIZE_BITS +
                calculate_aggregation_energy DATA_PACKET_SIZE_BITS) }) nodes2
      else
        updAt far_ch_id (fun c =>
          { c with remaining_energy_j := c.remaining_energy_j -
              (calculate_transmit_energy DATA_PACKET_SIZE_BITS
                c.distance_to_base_station_m) }) nodes1
  | none =>
      updAt far_ch_id (fun c =>
        { c with remaining_energy_j := c.remaining_energy_j -
            (calculate_transmit_energy DATA_PACKET_SIZE_BITS
              c.distance_to_base_station_m) }) nodes1

/-- The near-zone branch of zcr.rs `dissipate_cluster_head_energy` for one
near CH: (receive + aggregation) × member count, then direct transmit. -/
def zcrNearStep (nodes : List Node) (near_ch_id : ℕ) : List Node :=
  let member_count : ℚ :=
    ((nodes.getD near_ch_id dnode).cluster_member_ids.length : ℚ)
  let nodes1 := updAt near_ch_id (fun c =>
    { c with remaining_energy_j := c.remaining_energy_j - member_count *
        (calculate_receive_energy DATA_PACKET_SIZE_BITS +
          calculate_aggregation_energy DATA_PACKET_SIZE_BITS) }) nodes
  updAt near_ch_id (fun c =>
    { c with remaining_energy_j := c.remaining_energy_j -
        (calculate_transmit_energy DATA_PACKET_SIZE_BITS
          c.distance_to_base_station_m) }) nodes1

/-- zcr.rs `Zcr::dissipate_cluster_head_energy`: process all far-zone CHs,
then all near-zone CHs. -/
def Zcr.dissipate_cluster_head_energy (z : Zcr) (vlen : Pos → ℚ)
    (nodes : List Node) : List Node :=
  let nodes1 := z.zone_far.foldl (zcrFarStep vlen z.zone_near) nodes
  z.zone_near.foldl zcrNearStep nodes1

/-- zcr.rs `run_round`: the desired CH count
`(p * alive_node_count as f32).ceil() as usize` (the truncating cast of a
possibly negative f32 saturates at 0, as `Int.toNat` does). -/
def zcrDesiredCH (cluster_head_probability : ℚ) (alive_node_count : ℕ) : ℕ :=
  (⌈cluster_head_probability * (alive_node_count : ℚ)⌉).toNat

/-- zcr.rs `Zcr::run_round`: early return on zero alive nodes or zero
desired CHs; otherwise K-Means clustering, CH selection, zone assignment,
cluster formation, CH energy dissipation. -/
def Zcr.run_round (z : Zcr) (vlen : Pos → ℚ) (sample_idx : List ℕ)
    (simulator : Simulator) : Zcr × Simulator :=
  if simulator.alive_node_count = 0 then (z, simulator)
  else
    let k := zcrDesiredCH z.cluster_head_probability simulator.alive_node_count
    let z1 := { z with num_cluster_heads := k }
    if z1.num_cluster_heads = 0 then (z1, simulator)
    else
      let km := (KMeans.new z1.num_cluster_heads).fit vlen sample_idx
        simulator.nodes
      let st1 := zcrSelect vlen km.centroids km.clusters simulator.nodes
        simulator.alive_node_count z1.num_cluster_heads
      let zn := z1.assign_zones st1.selected st1.nodes
      let nodes3 := Zcr.form_clusters vlen st1.selected zn.2 km.clusters
      let nodes4 := zn.1.dissipate_cluster_head_energy vlen nodes3
      (zn.1, { simulator with nodes := nodes4,
                              alive_node_count := st1.alive_node_count })

/-- simulator.rs `Simulator::update` specialised to ZCR. -/
def Simulator.update_zcr (simulator : Simulator) (z : Zcr) (vlen : Pos → ℚ)
    (sample_idx : List ℕ) : Zcr × Simulator :=
  z.run_round vlen sample_idx
    { simulator with current_round := simulator.current_round + 1 }

/-- Concrete `Vec2::length` instantiation for closed scenarios (all the
positions involved coincide, so every length is 0). -/
def c10Vlen : Pos → ℚ := fun _ => 0

/-- Concrete random draws for closed scenarios (always 0, below every
positive threshold). -/
def c10Draw : ℕ → ℚ := fun _ => 0

/-- A node sitting exactly on the base station (position (250, 250), so
its precomputed distance to the sink is 0) with a small positive energy
(1/10000 J), alive and eligible. -/
def c10Node : Node :=
  { dnode with position := (250, 250), is_alive := true,
               is_eligible_for_ch := true,
               remaining_energy_j := 1 / 10000 }

/-- One-node simulator for the deferred-death scenario. -/
def c10Sim : Simulator :=
  { nodes := [c10Node], current_round := 0, alive_node_count := 1 }

/-- First LEACH driver step of the deferred-death scenario. -/
def c10Leach1 : Leach × Simulator :=
  c10Sim.update_leach (Leach.new (1 / 10)) c10Vlen c10Draw

/-- Second LEACH driver step of the deferred-death scenario. -/
def c10Leach2 : Leach × Simulator :=
  (c10Leach1.2).update_leach c10Leach1.1 c10Vlen c10Draw

/-- First ZCR driver step of the deferred-death scenario. -/
def c10Zcr1 : Zcr × Simulator :=
  c10Sim.update_zcr (Zcr.new (1 / 10)) c10Vlen [0]

/-- Second ZCR driver step of the deferred-death scenario. -/
def c10Zcr2 : Zcr × Simulator :=
  (c10Zcr1.2).update_zcr c10Zcr1.1 c10Vlen [0]

/-- A node at index `j` is an eligible CH candidate for the ZCR selection
loop: alive and not yet depleted when the loop reaches it (the loop kills
depleted nodes and skips dead ones; earlier iterations touch only other
indices, so both conditions are read off the node list at loop entry). -/
def zcrCandidate (nodes : List Node) (j : ℕ) : Prop :=
  (nodes.getD j dnode).is_alive = true ∧
    ¬ (nodes.getD j dnode).remaining_energy_j ≤ 0

/-- The score the ZCR selection loop computes for the node at index `j`
(on the reset node, whose energy and position equal the original's). -/
def zcrScoreOf (vlen : Pos → ℚ) (centroids : List Pos)
    (assignments : List ℕ) (nodes : List Node) (j : ℕ) : ℚ :=
  zcr_candidate_score vlen (reset_node_for_new_round (nodes.getD j dnode))
    (centroids.getD (assignments.getD j 0) (0, 0))

/-- Invariant of the ZCR selection loop after the first `m` nodes have
been scanned: for every cluster index `c < k`, either no candidate with
cluster `c` has been seen (selection empty, best score `⊥`), or the
selected node is a candidate in `c` seen so far whose stored score is its
own, every earlier candidate in `c` scores strictly below it (first-seen
wins on ties), and every scanned candidate in `c` scores at most it. -/
def selInv (vlen : Pos → ℚ) (centroids : List Pos) (assignments : List ℕ)
    (ns0 : List Node) (k m : ℕ) (best : List (WithBot ℚ))
    (sel : List (Option ℕ)) : Prop :=
  ∀ c, c < k →
    (sel.getD c none = none → best.getD c ⊥ = ⊥ ∧
      ∀ j, j < m → assignments.getD j 0 = c → ¬ zcrCandidate ns0 j) ∧
    (∀ i, sel.getD c none = some i →
      best.getD c ⊥ = (zcrScoreOf vlen centroids assignments ns0 i : WithBot ℚ) ∧
      zcrCandidate ns0 i ∧ i < m ∧ assignments.getD i 0 = c ∧
      (∀ j, j < i → assignments.getD j 0 = c → zcrCandidate ns0 j →
        zcrScoreOf vlen centroids assignments ns0 j <
          zcrScoreOf vlen centroids assignments ns0 i) ∧
      (∀ j, j < m → assignments.getD j 0 = c → zcrCandidate ns0 j →
        zcrScoreOf vlen centroids assignments ns0 j ≤
          zcrScoreOf vlen centroids assignments ns0 i))

/-! ### Helper lemmas -/

@[simp]
lemma reset_node_is_alive (n : Node) :
    (reset_node_for_new_round n).is_alive = n.is_alive := rfl

@[simp]
lemma reset_node_energy (n : Node) :
    (reset_node_for_new_round n).remaining_energy_j = n.remaining_energy_j := rfl

@[simp]
lemma reset_node_position (n : Node) :
    (reset_node_for_new_round n).position = n.position := rfl

@[simp]
lemma reset_node_eligible (n : Node) :
    (reset_node_for_new_round n).is_eligible_for_ch = n.is_eligible_for_ch := rfl

@[simp]
lemma leachEligReset_is_alive (cr : Bool) (n : Node) :
    (leachEligReset cr n).is_alive = n.is_alive := by
  cases cr <;> rfl

@[simp]
lemma leachEligReset_energy (cr : Bool) (n : Node) :
    (leachEligReset cr n).remaining_energy_j = n.remaining_energy_j := by
  cases cr <;> rfl

@[simp]
lemma leachEligReset_position (cr : Bool) (n : Node) :
    (leachEligReset cr n).position = n.position := by
  cases cr <;> rfl

lemma getD_set_self {α : Type} (l : List α) (i : ℕ) (a d : α)
    (h : i < l.length) : (l.set i a).getD i d = a := by
  induction l generalizing i with
  | nil => simp at h
  | cons x xs ih =>
    cases i with
    | zero => simp
    | succ k =>
      simp only [List.set, List.getD_cons_succ]
      exact ih k (by simpa using h)

lemma getD_set_ne {α : Type} (l : List α) (i j : ℕ) (a d : α)
    (h : i ≠ j) : (l.set i a).getD j d = l.getD j d := by
  induction l generalizing i j with
  | nil => simp
  | cons x xs ih =>
    cases i with
    | zero =>
      cases j with
      | zero => exact absurd rfl h
      | succ m => simp
    | succ k =>
      cases j with
      | zero => simp
      | succ m =>
        simp only [List.set, List.getD_cons_succ]
        exact ih k m (by omega)

lemma set_oob {α : Type} (l : List α) (i : ℕ) (a : α)
    (h : l.length ≤ i) : l.set i a = l := by
  induction l generalizing i with
  | nil => simp
  | cons x xs ih =>
    cases i with
    | zero => simp at h
    | succ k => simp only [List.set]; rw [ih k (by simpa using h)]

@[simp]
lemma length_updAt (i : ℕ) (f : Node → Node) (ns : List Node) :
    (updAt i f ns).length = ns.length := by
  simp [updAt]

lemma getD_updAt_self (i : ℕ) (f : Node → Node) (ns : List Node)
    (hi : i < ns.length) :
    (updAt i f ns).getD i dnode = f (ns.getD i dnode) :=
  getD_set_self ns i _ dnode hi

lemma getD_updAt_ne (i j : ℕ) (f : Node → Node) (ns : List Node)
    (h : i ≠ j) :
    (updAt i f ns).getD j dnode = ns.getD j dnode :=
  getD_set_ne ns i j _ dnode h

lemma countAlive_cons (n : Node) (ns : List Node) :
    countAlive (n :: ns) = (if n.is_alive then 1 else 0) + countAlive ns := by
  simp [countAlive, List.countP_cons]
  omega

lemma countAlive_le_length (ns : List Node) : countAlive ns ≤ ns.length :=
  List.countP_le_length _

lemma countAlive_set_preserve (ns : List Node) (i : ℕ) (n : Node)
    (h : n.is_alive = (ns.getD i dnode).is_alive) :
    countAlive (ns.set i n) = countAlive ns := by
  induction ns generalizing i with
  | nil => simp
  | cons x xs ih =>
    cases i with
    | zero =>
      simp only [List.getD_cons_zero] at h
      simp [List.set, countAlive_cons, h]
    | succ k =>
      simp only [List.getD_cons_succ] at h
      simp only [List.set, countAlive_cons]
      rw [ih k h]

lemma countAlive_set_kill (ns : List Node) (i : ℕ) (n : Node)
    (hi : i < ns.length) (halive : (ns.getD i dnode).is_alive = true)
    (hn : n.is_alive = false) :
    countAlive (ns.set i n) + 1 = countAlive ns := by
  induction ns generalizing i with
  | nil => simp at hi
  | cons x xs ih =>
    cases i with
    | zero =>
      simp only [List.getD_cons_zero] at halive
      simp [List.set, countAlive_cons, halive, hn]
      omega
    | succ k =>
      simp only [List.getD_cons_succ] at halive
      simp only [List.set, countAlive_cons]
      have := ih k (by simpa using hi) halive
      omega

lemma countAlive_updAt_preserve (i : ℕ) (f : Node → Node) (ns : List Node)
    (h : ∀ m, (f m).is_alive = m.is_alive) :
    countAlive (updAt i f ns) = countAlive ns :=
  countAlive_set_preserve ns i _ (h _)

/-- A fold whose every step preserves `countAlive` preserves `countAlive`. -/
lemma countAlive_foldl {β : Type} (step : List Node → β → List Node)
    (h : ∀ ns b, countAlive (step ns b) = countAlive ns) :
    ∀ (l : List β) (ns : List Node), countAlive (l.foldl step ns) = countAlive ns := by
  intro l
  induction l with
  | nil => intro ns; rfl
  | cons x xs ih => intro ns; rw [List.foldl_cons, ih, h]

/-- Per-node ordering between two snapshots: energy has not increased and
death has not been reverted. -/
def NodeLE (a b : Node) : Prop :=
  a.remaining_energy_j ≤ b.remaining_energy_j ∧
    (b.is_alive = false → a.is_alive = false)

lemma nodeLE_refl (n : Node) : NodeLE n n := ⟨le_refl _, fun h => h⟩

lemma nodeLE_trans {a b c : Node} (h1 : NodeLE a b) (h2 : NodeLE b c) :
    NodeLE a c := ⟨le_trans h1.1 h2.1, fun h => h1.2 (h2.2 h)⟩

/-- Pointwise `NodeLE` between two node lists (via the `getD` reads the
embedding uses everywhere). -/
def NodesLE (xs ys : List Node) : Prop :=
  ∀ i, NodeLE (xs.getD i dnode) (ys.getD i dnode)

lemma nodesLE_refl (ns : List Node) : NodesLE ns ns := fun _ => nodeLE_refl _

lemma nodesLE_trans {xs ys zs : List Node} (h1 : NodesLE xs ys)
    (h2 : NodesLE ys zs) : NodesLE xs zs :=
  fun i => nodeLE_trans (h1 i) (h2 i)

lemma nodesLE_set (ns : List Node) (i : ℕ) (n : Node)
    (h : NodeLE n (ns.getD i dnode)) : NodesLE (ns.set i n) ns := by
  intro j
  rcases eq_or_ne i j with rfl | hij
  · by_cases hi : i < ns.length
    · rw [getD_set_self ns i n dnode hi]; exact h
    · rw [set_oob ns i n (by omega)]; exact nodeLE_refl _
  · rw [getD_set_ne ns i j n dnode hij]; exact nodeLE_refl _

lemma nodesLE_updAt (i : ℕ) (f : Node → Node) (ns : List Node)
    (h : ∀ m, NodeLE (f m) m) : NodesLE (updAt i f ns) ns :=
  nodesLE_set ns i _ (h _)

/-- A fold whose every step is `NodesLE`-decreasing is `NodesLE`-decreasing. -/
lemma nodesLE_foldl {β : Type} (step : List Node → β → List Node)
    (h : ∀ ns b, NodesLE (step ns b) ns) :
    ∀ (l : List β) (ns : List Node), NodesLE (l.foldl step ns) ns := by
  intro l
  induction l with
  | nil => intro ns; exact nodesLE_refl ns
  | cons x xs ih =>
    intro ns
    exact nodesLE_trans (ih (step ns x)) (h ns x)

lemma transmit_energy_nonneg (d : ℚ) :
    0 ≤ calculate_transmit_energy DATA_PACKET_SIZE_BITS d := by
  unfold calculate_transmit_energy DATA_PACKET_SIZE_BITS
    ENERGY_PER_BIT_ELECTRONICS_J ENERGY_FREE_SPACE_AMP_J ENERGY_MULTIPATH_AMP_J
  split <;> positivity

lemma receive_aggregation_nonneg :
    0 ≤ calculate_receive_energy DATA_PACKET_SIZE_BITS +
        calculate_aggregation_energy DATA_PACKET_SIZE_BITS := by
  norm_num [calculate_receive_energy, calculate_aggregation_energy,
    DATA_PACKET_SIZE_BITS, ENERGY_PER_BIT_ELECTRONICS_J, ENERGY_AGGREGATION_J]

/-- Case split used by both per-node death-check loops: writing node `n1`
at index `i` either preserves the alive flag (count cached unchanged) or
kills an alive node (cached count decremented). -/
lemma alive_inv_set_cases (ns : List Node) (a : ℕ) (i : ℕ) (n1 : Node)
    (a1 : ℕ) (hi : i < ns.length) (h : countAlive ns = a)
    (hcase : (n1.is_alive = (ns.getD i dnode).is_alive ∧ a1 = a) ∨
      ((ns.getD i dnode).is_alive = true ∧ n1.is_alive = false ∧ a1 = a - 1)) :
    countAlive (ns.set i n1) = a1 := by
  rcases hcase with ⟨heq, rfl⟩ | ⟨halive, hfalse, rfl⟩
  · rw [countAlive_set_preserve ns i n1 heq, h]
  · have := countAlive_set_kill ns i n1 hi halive hfalse
    omega

lemma leachPhase1Step_nodes_length (lp : Leach) (cr : Bool) (draw : ℕ → ℚ)
    (st : LeachLoopSt) (i : ℕ) :
    (leachPhase1Step lp cr draw st i).nodes.length = st.nodes.length := by
  simp only [leachPhase1Step]
  split
  · simp
  · split <;> simp

lemma leachPhase1Step_alive_inv (lp : Leach) (cr : Bool) (draw : ℕ → ℚ)
    (st : LeachLoopSt) (i : ℕ) (hi : i < st.nodes.length)
    (h : countAlive st.nodes = st.alive_node_count) :
    countAlive (leachPhase1Step lp cr draw st i).nodes =
      (leachPhase1Step lp cr draw st i).alive_node_count := by
  have hsame : (leachEligReset cr
      (reset_node_for_new_round (st.nodes.getD i dnode))).is_alive =
      (st.nodes.getD i dnode).is_alive := by simp
  simp only [leachPhase1Step]
  split
  case isTrue hdead =>
    exact alive_inv_set_cases st.nodes st.alive_node_count i _ _ hi h
      (Or.inr ⟨by rw [← hsame]; exact hdead.1, rfl, rfl⟩)
  case isFalse hlive =>
    split
    · exact alive_inv_set_cases st.nodes st.alive_node_count i _ _ hi h
        (Or.inl ⟨hsame, rfl⟩)
    · exact alive_inv_set_cases st.nodes st.alive_node_count i _ _ hi h
        (Or.inl ⟨hsame, rfl⟩)

lemma leachPhase1_fold_inv (lp : Leach) (cr : Bool) (draw : ℕ → ℚ) :
    ∀ (l : List ℕ) (st : LeachLoopSt),
    (∀ j ∈ l, j < st.nodes.length) →
    countAlive st.nodes = st.alive_node_count →
    countAlive ((l.foldl (leachPhase1Step lp cr draw) st).nodes) =
      (l.foldl (leachPhase1Step lp cr draw) st).alive_node_count ∧
    (l.foldl (leachPhase1Step lp cr draw) st).nodes.length = st.nodes.length := by
  intro l
  induction l with
  | nil => intro st _ h; exact ⟨h, rfl⟩
  | cons x xs ih =>
    intro st hb h
    have hx : x < st.nodes.length := hb x (List.mem_cons_self x xs)
    have hstep := leachPhase1Step_alive_inv lp cr draw st x hx h
    have hlen := leachPhase1Step_nodes_length lp cr draw st x
    rw [List.foldl_cons]
    have hrec := ih (leachPhase1Step lp cr draw st x)
      (fun j hj => by rw [hlen]; exact hb j (List.mem_cons_of_mem x hj)) hstep
    exact ⟨hrec.1, by rw [hrec.2, hlen]⟩

lemma leachFormStep_countAlive (vlen : Pos → ℚ) (chs : List ℕ)
    (ns : List Node) (i : ℕ) :
    countAlive (leachFormStep vlen chs ns i) = countAlive ns := by
  simp only [leachFormStep]
  split
  · split
    · refine (countAlive_updAt_preserve _ _ _ ?_).trans
        ((countAlive_updAt_preserve _ _ _ ?_).trans
          (countAlive_updAt_preserve _ _ _ ?_)) <;> exact fun m => rfl
    · rfl
  · rfl

lemma leachPhase3Step_countAlive (ns : List Node) (ch : ℕ) :
    countAlive (leachPhase3Step ns ch) = countAlive ns := by
  simp only [leachPhase3Step]
  split
  · rfl
  · refine (countAlive_updAt_preserve _ _ _ ?_).trans
      (countAlive_updAt_preserve _ _ _ ?_) <;> exact fun m => rfl

lemma leach_run_round_alive_inv (lp : Leach) (vlen : Pos → ℚ) (draw : ℕ → ℚ)
    (s : Simulator) (h : countAlive s.nodes = s.alive_node_count) :
    countAlive ((lp.run_round vlen draw s).2).nodes =
      ((lp.run_round vlen draw s).2).alive_node_count := by
  have hfold := leachPhase1_fold_inv (lp.update_election_threshold s.current_round)
    (decide (s.current_round %
      (lp.update_election_threshold s.current_round).cycle_length_rounds = 0))
    draw (List.range s.nodes.length)
    { nodes := s.nodes, alive_node_count := s.alive_node_count, selected := [] }
    (fun j hj => List.mem_range.mp hj) h
  simp only [Leach.run_round, Leach.form_clusters]
  rw [countAlive_foldl leachPhase3Step (fun ns b => leachPhase3Step_countAlive ns b),
    countAlive_foldl _ (fun ns b => leachFormStep_countAlive vlen _ ns b)]
  exact hfold.1

lemma zcrSelStep_nodes_length (vlen : Pos → ℚ) (cents : List Pos)
    (st : ZcrSelSt) (q : ℕ × ℕ) :
    (zcrSelStep vlen cents st q).nodes.length = st.nodes.length := by
  simp only [zcrSelStep]
  split
  · simp
  · split
    · simp
    · split <;> simp

lemma zcrSelStep_alive_inv (vlen : Pos → ℚ) (cents : List Pos)
    (st : ZcrSelSt) (q : ℕ × ℕ) (hi : q.1 < st.nodes.length)
    (h : countAlive st.nodes = st.alive_node_count) :
    countAlive (zcrSelStep vlen cents st q).nodes =
      (zcrSelStep vlen cents st q).alive_node_count := by
  simp only [zcrSelStep]
  split
  case isTrue hdead =>
    exact alive_inv_set_cases st.nodes st.alive_node_count q.1 _ _ hi h
      (Or.inr ⟨by rw [← reset_node_is_alive]; exact hdead.1, rfl, rfl⟩)
  case isFalse hlive =>
    split
    · exact alive_inv_set_cases st.nodes st.alive_node_count q.1 _ _ hi h
        (Or.inl ⟨reset_node_is_alive _, rfl⟩)
    · split
      · exact alive_inv_set_cases st.nodes st.alive_node_count q.1 _ _ hi h
          (Or.inl ⟨reset_node_is_alive _, rfl⟩)
      · exact alive_inv_set_cases st.nodes st.alive_node_count q.1 _ _ hi h
          (Or.inl ⟨reset_node_is_alive _, rfl⟩)

lemma zcrSel_fold_inv (vlen : Pos → ℚ) (cents : List Pos) :
    ∀ (l : List (ℕ × ℕ)) (st : ZcrSelSt),
    (∀ q ∈ l, q.1 < st.nodes.length) →
    countAlive st.nodes = st.alive_node_count →
    countAlive ((l.foldl (zcrSelStep vlen cents) st).nodes) =
      (l.foldl (zcrSelStep vlen cents) st).alive_node_count ∧
    (l.foldl (zcrSelStep vlen cents) st).nodes.length = st.nodes.length := by
  intro l
  induction l with
  | nil => intro st _ h; exact ⟨h, rfl⟩
  | cons x xs ih =>
    intro st hb h
    have hx : x.1 < st.nodes.length := hb x (List.mem_cons_self x xs)
    have hstep := zcrSelStep_alive_inv vlen cents st x hx h
    have hlen := zcrSelStep_nodes_length vlen cents st x
    rw [List.foldl_cons]
    have hrec := ih (zcrSelStep vlen cents st x)
      (fun q hq => by rw [hlen]; exact hb q (List.mem_cons_of_mem x hq)) hstep
    exact ⟨hrec.1, by rw [hrec.2, hlen]⟩

lemma fst_lt_of_mem_enumFrom {α : Type} :
    ∀ (l : List α) (n : ℕ) (q : ℕ × α), q ∈ List.enumFrom n l →
      q.1 < n + l.length := by
  intro l
  induction l with
  | nil => intro n q hq; simp [List.enumFrom] at hq
  | cons x xs ih =>
    intro n q hq
    simp only [List.enumFrom, List.mem_cons] at hq
    rcases hq with rfl | hq
    · simp
    · have := ih (n + 1) q hq
      simp only [List.length_cons]
      omega

lemma fst_lt_of_mem_enum {α : Type} (l : List α) (q : ℕ × α)
    (hq : q ∈ l.enum) : q.1 < l.length := by
  have := fst_lt_of_mem_enumFrom l 0 q hq
  omega

lemma zcrZone_fold_countAlive :
    ∀ (l : List ℕ) (acc : Zcr × List Node),
    countAlive ((l.foldl zcrZoneStep acc).2) = countAlive acc.2 := by
  intro l
  induction l with
  | nil => intro acc; rfl
  | cons x xs ih =>
    intro acc
    rw [List.foldl_cons, ih]
    simp only [zcrZoneStep]
    refine countAlive_updAt_preserve _ _ _ ?_
    exact fun m => rfl

lemma zcrFormStep_countAlive (vlen : Pos → ℚ) (sel : List (Option ℕ))
    (ns : List Node) (q : ℕ × ℕ) :
    countAlive (zcrFormStep vlen sel ns q) = countAlive ns := by
  simp only [zcrFormStep]
  split
  · rfl
  · split
    · refine (countAlive_updAt_preserve _ _ _ ?_).trans
        ((countAlive_updAt_preserve _ _ _ ?_).trans
          (countAlive_updAt_preserve _ _ _ ?_)) <;> exact fun m => rfl
    · rfl

lemma zcrFarStep_countAlive (vlen : Pos → ℚ) (zone_near : List ℕ)
    (ns : List Node) (far : ℕ) :
    countAlive (zcrFarStep vlen zone_near ns far) = countAlive ns := by
  simp only [zcrFarStep]
  split
  · split
    · refine (countAlive_updAt_preserve _ _ _ ?_).trans
        ((countAlive_updAt_preserve _ _ _ ?_).trans
          (countAlive_updAt_preserve _ _ _ ?_)) <;> exact fun m => rfl
    · refine (countAlive_updAt_preserve _ _ _ ?_).trans
        (countAlive_updAt_preserve _ _ _ ?_) <;> exact fun m => rfl
  · refine (countAlive_updAt_preserve _ _ _ ?_).trans
      (countAlive_updAt_preserve _ _ _ ?_) <;> exact fun m => rfl

lemma zcrNearStep_countAlive (ns : List Node) (near : ℕ) :
    countAlive (zcrNearStep ns near) = countAlive ns := by
  simp only [zcrNearStep]
  refine (countAlive_updAt_preserve _ _ _ ?_).trans
    (countAlive_updAt_preserve _ _ _ ?_) <;> exact fun m => rfl

lemma kmeansAssign_clusters_length (vlen : Pos → ℚ) (wsn : List Node)
    (km : KMeans) : (kmeansAssign vlen wsn km).clusters.length = wsn.length := by
  simp [kmeansAssign]

lemma kmeansLoop_clusters_length (vlen : Pos → ℚ) (wsn : List Node) :
    ∀ (fuel : ℕ) (km : KMeans), km.clusters.length = wsn.length →
    (kmeansLoop vlen wsn fuel km).clusters.length = wsn.length := by
  intro fuel
  induction fuel with
  | zero => intro km h; exact h
  | succ n ih =>
    intro km h
    simp only [kmeansLoop]
    have hassign := kmeansAssign_clusters_length vlen wsn km
    have hupd : ((kmeansAssign vlen wsn km).update_centroids wsn).1.clusters =
        (kmeansAssign vlen wsn km).clusters := rfl
    split
    · rw [hupd, hassign]
    · exact ih _ (by rw [hupd, hassign])

lemma fit_clusters_length (k : ℕ) (vlen : Pos → ℚ) (sample_idx : List ℕ)
    (wsn : List Node) :
    ((KMeans.new k).fit vlen sample_idx wsn).clusters.length = wsn.length := by
  simp only [KMeans.fit]
  exact kmeansLoop_clusters_length vlen wsn MAX_ITER _ (by simp)

lemma zcr_run_round_alive_inv (z : Zcr) (vlen : Pos → ℚ) (sample_idx : List ℕ)
    (s : Simulator) (h : countAlive s.nodes = s.alive_node_count) :
    countAlive ((z.run_round vlen sample_idx s).2).nodes =
      ((z.run_round vlen sample_idx s).2).alive_node_count := by
  simp only [Zcr.run_round]
  split
  · exact h
  · split
    · exact h
    · simp only [zcrSelect, Zcr.form_clusters, Zcr.dissipate_cluster_head_energy,
        Zcr.assign_zones]
      set km := (KMeans.new (zcrDesiredCH z.cluster_head_probability
        s.alive_node_count)).fit vlen sample_idx s.nodes with hkm
      have hclen : km.clusters.length = s.nodes.length :=
        fit_clusters_length _ vlen sample_idx s.nodes
      have hfold := zcrSel_fold_inv vlen km.centroids km.clusters.enum
        { nodes := s.nodes, alive_node_count := s.alive_node_count,
          best_scores := List.replicate (zcrDesiredCH z.cluster_head_probability
            s.alive_node_count) ⊥,
          selected := List.replicate (zcrDesiredCH z.cluster_head_probability
            s.alive_node_count) none }
        (fun q hq => by
          have := fst_lt_of_mem_enum km.clusters q hq
          simpa [hclen] using this) h
      rw [countAlive_foldl zcrNearStep (fun ns b => zcrNearStep_countAlive ns b),
        countAlive_foldl _ (fun ns b => zcrFarStep_countAlive vlen _ ns b),
        countAlive_foldl _ (fun ns b => zcrFormStep_countAlive vlen _ ns b),
        zcrZone_fold_countAlive]
      exact hfold.1

/-! ### Claim C1 -/

/-- C1: for either protocol, if the cached `alive_node_count` equals the
number of nodes with `is_alive = true` before a round, the equality still
holds after the round. -/
theorem round_alive_count_invariant (lp : Leach) (z : Zcr) (vlen : Pos → ℚ)
    (draw : ℕ → ℚ) (sample_idx : List ℕ) (s : Simulator)
    (h : countAlive s.nodes = s.alive_node_count) :
    countAlive ((lp.run_round vlen draw s).2).nodes =
      ((lp.run_round vlen draw s).2).alive_node_count ∧
    countAlive ((z.run_round vlen sample_idx s).2).nodes =
      ((z.run_round vlen sample_idx s).2).alive_node_count :=
  ⟨leach_run_round_alive_inv lp vlen draw s h,
   zcr_run_round_alive_inv z vlen sample_idx s h⟩

/-- Witness for C1: a one-node simulator with a correct cached count, run
through one LEACH round and one ZCR round. -/
theorem round_alive_count_invariant_witness :
    countAlive (((Leach.new (1 / 10)).run_round (fun _ => 0) (fun _ => 0)
        (Simulator.mk [{ dnode with is_alive := true, remaining_energy_j := 2 }] 1 1)).2).nodes =
      (((Leach.new (1 / 10)).run_round (fun _ => 0) (fun _ => 0)
        (Simulator.mk [{ dnode with is_alive := true, remaining_energy_j := 2 }] 1 1)).2).alive_node_count ∧
    countAlive (((Zcr.new (1 / 10)).run_round (fun _ => 0) [0]
        (Simulator.mk [{ dnode with is_alive := true, remaining_energy_j := 2 }] 1 1)).2).nodes =
      (((Zcr.new (1 / 10)).run_round (fun _ => 0) [0]
        (Simulator.mk [{ dnode with is_alive := true, remaining_energy_j := 2 }] 1 1)).2).alive_node_count :=
  round_alive_count_invariant (Leach.new (1 / 10)) (Zcr.new (1 / 10))
    (fun _ => 0) (fun _ => 0) [0]
    (Simulator.mk [{ dnode with is_alive := true, remaining_energy_j := 2 }] 1 1)
    (by decide)

/-- Generic fold lemma: a fold over any state type whose steps are
`NodesLE`-decreasing on a projected node list is `NodesLE`-decreasing. -/
lemma nodesLE_foldl_proj {σ β : Type} (proj : σ → List Node) (step : σ → β → σ)
    (h : ∀ st b, NodesLE (proj (step st b)) (proj st)) :
    ∀ (l : List β) (st : σ), NodesLE (proj (l.foldl step st)) (proj st) := by
  intro l
  induction l with
  | nil => intro st; exact nodesLE_refl _
  | cons x xs ih => intro st; exact nodesLE_trans (ih (step st x)) (h st x)

lemma leachPhase1Step_nodesLE (lp : Leach) (cr : Bool) (draw : ℕ → ℚ)
    (st : LeachLoopSt) (i : ℕ) :
    NodesLE (leachPhase1Step lp cr draw st i).nodes st.nodes := by
  simp only [leachPhase1Step]
  split
  · refine nodesLE_set _ _ _ ⟨?_, ?_⟩
    · simp
    · intro _; rfl
  · split
    · refine nodesLE_set _ _ _ ⟨?_, ?_⟩
      · simp
      · intro hf; simpa using hf
    · refine nodesLE_set _ _ _ ⟨?_, ?_⟩
      · simp
      · intro hf; simpa using hf

lemma leachFormStep_nodesLE (vlen : Pos → ℚ) (chs : List ℕ)
    (ns : List Node) (i : ℕ) :
    NodesLE (leachFormStep vlen chs ns i) ns := by
  simp only [leachFormStep]
  split
  · split
    · refine nodesLE_trans (nodesLE_updAt _ _ _ ?_)
        (nodesLE_trans (nodesLE_updAt _ _ _ ?_) (nodesLE_updAt _ _ _ ?_))
      · exact fun m => ⟨sub_le_self _ (transmit_energy_nonneg _), fun hf => hf⟩
      · exact fun m => ⟨le_refl _, fun hf => hf⟩
      · exact fun m => ⟨le_refl _, fun hf => hf⟩
    · exact nodesLE_refl _
  · exact nodesLE_refl _

lemma leachPhase3Step_nodesLE (ns : List Node) (ch : ℕ) :
    NodesLE (leachPhase3Step ns ch) ns := by
  simp only [leachPhase3Step]
  split
  · exact nodesLE_refl _
  · refine nodesLE_trans (nodesLE_updAt _ _ _ ?_) (nodesLE_updAt _ _ _ ?_)
    · exact fun m => ⟨sub_le_self _ (transmit_energy_nonneg _), fun hf => hf⟩
    · exact fun m => ⟨sub_le_self _
        (mul_nonneg receive_aggregation_nonneg (by positivity)), fun hf => hf⟩

lemma leach_run_round_nodesLE (lp : Leach) (vlen : Pos → ℚ) (draw : ℕ → ℚ)
    (s : Simulator) :
    NodesLE ((lp.run_round vlen draw s).2).nodes s.nodes := by
  simp only [Leach.run_round, Leach.form_clusters]
  refine nodesLE_trans (nodesLE_foldl leachPhase3Step
      (fun ns b => leachPhase3Step_nodesLE ns b) _ _)
    (nodesLE_trans (nodesLE_foldl _
      (fun ns b => leachFormStep_nodesLE vlen _ ns b) _ _) ?_)
  exact nodesLE_foldl_proj LeachLoopSt.nodes _
    (fun st b => leachPhase1Step_nodesLE _ _ draw st b) _ _

lemma zcrSelStep_nodesLE (vlen : Pos → ℚ) (cents : List Pos)
    (st : ZcrSelSt) (q : ℕ × ℕ) :
    NodesLE (zcrSelStep vlen cents st q).nodes st.nodes := by
  simp only [zcrSelStep]
  split
  · refine nodesLE_set _ _ _ ⟨?_, ?_⟩
    · simp
    · intro _; rfl
  · split
    · refine nodesLE_set _ _ _ ⟨?_, ?_⟩
      · simp
      · intro hf; simpa using hf
    · split
      · refine nodesLE_set _ _ _ ⟨?_, ?_⟩
        · simp
        · intro hf; simpa using hf
      · refine nodesLE_set _ _ _ ⟨?_, ?_⟩
        · simp
        · intro hf; simpa using hf

lemma zcrZoneStep_nodesLE (acc : Zcr × List Node) (ch : ℕ) :
    NodesLE (zcrZoneStep acc ch).2 acc.2 := by
  simp only [zcrZoneStep]
  exact nodesLE_updAt _ _ _ (fun m => ⟨le_refl _, fun hf => hf⟩)

lemma zcrFormStep_nodesLE (vlen : Pos → ℚ) (sel : List (Option ℕ))
    (ns : List Node) (q : ℕ × ℕ) :
    NodesLE (zcrFormStep vlen sel ns q) ns := by
  simp only [zcrFormStep]
  split
  · exact nodesLE_refl _
  · split
    · refine nodesLE_trans (nodesLE_updAt _ _ _ ?_)
        (nodesLE_trans (nodesLE_updAt _ _ _ ?_) (nodesLE_updAt _ _ _ ?_))
      · exact fun m => ⟨sub_le_self _ (transmit_energy_nonneg _), fun hf => hf⟩
      · exact fun m => ⟨le_refl _, fun hf => hf⟩
      · exact fun m => ⟨le_refl _, fun hf => hf⟩
    · exact nodesLE_refl _

lemma zcrFarStep_nodesLE (vlen : Pos → ℚ) (zone_near : List ℕ)
    (ns : List Node) (far : ℕ) :
    NodesLE (zcrFarStep vlen zone_near ns far) ns := by
  simp only [zcrFarStep]
  split
  · split
    · refine nodesLE_trans (nodesLE_updAt _ _ _ ?_)
        (nodesLE_trans (nodesLE_updAt _ _ _ ?_) (nodesLE_updAt _ _ _ ?_))
      · exact fun m => ⟨sub_le_self _ receive_aggregation_nonneg, fun hf => hf⟩
      · exact fun m => ⟨sub_le_self _ (transmit_energy_nonneg _), fun hf => hf⟩
      · exact fun m => ⟨sub_le_self _
          (mul_nonneg receive_aggregation_nonneg (by positivity)), fun hf => hf⟩
    · refine nodesLE_trans (nodesLE_updAt _ _ _ ?_) (nodesLE_updAt _ _ _ ?_)
      · exact fun m => ⟨sub_le_self _ (transmit_energy_nonneg _), fun hf => hf⟩
      · exact fun m => ⟨sub_le_self _
          (mul_nonneg receive_aggregation_nonneg (by positivity)), fun hf => hf⟩
  · refine nodesLE_trans (nodesLE_updAt _ _ _ ?_) (nodesLE_updAt _ _ _ ?_)
    · exact fun m => ⟨sub_le_self _ (transmit_energy_nonneg _), fun hf => hf⟩
    · exact fun m => ⟨sub_le_self _
        (mul_nonneg receive_aggregation_nonneg (by positivity)), fun hf => hf⟩

lemma zcrNearStep_nodesLE (ns : List Node) (near : ℕ) :
    NodesLE (zcrNearStep ns near) ns := by
  simp only [zcrNearStep]
  refine nodesLE_trans (nodesLE_updAt _ _ _ ?_) (nodesLE_updAt _ _ _ ?_)
  · exact fun m => ⟨sub_le_self _ (transmit_energy_nonneg _), fun hf => hf⟩
  · exact fun m => ⟨sub_le_self _
      (mul_nonneg (by positivity) receive_aggregation_nonneg), fun hf => hf⟩

lemma zcr_run_round_nodesLE (z : Zcr) (vlen : Pos → ℚ) (sample_idx : List ℕ)
    (s : Simulator) :
    NodesLE ((z.run_round vlen sample_idx s).2).nodes s.nodes := by
  simp only [Zcr.run_round]
  split
  · exact nodesLE_refl _
  · split
    · exact nodesLE_refl _
    · simp only [zcrSelect, Zcr.form_clusters, Zcr.dissipate_cluster_head_energy,
        Zcr.assign_zones]
      refine nodesLE_trans (nodesLE_foldl zcrNearStep
          (fun ns b => zcrNearStep_nodesLE ns b) _ _)
        (nodesLE_trans (nodesLE_foldl _
          (fun ns b => zcrFarStep_nodesLE vlen _ ns b) _ _)
        (nodesLE_trans (nodesLE_foldl _
          (fun ns b => zcrFormStep_nodesLE vlen _ ns b) _ _)
        (nodesLE_trans
          (nodesLE_foldl_proj Prod.snd zcrZoneStep
            (fun acc b => zcrZoneStep_nodesLE acc b) _ _)
          (nodesLE_foldl_proj ZcrSelSt.nodes _
            (fun st b => zcrSelStep_nodesLE vlen _ st b) _ _))))

/-! ### Claim C2 -/

/-- C2: for either protocol and every node index, the node's remaining
energy after a round is at most its energy before the round, and a node
dead before the round is still dead after it. -/
theorem round_energy_monotone_death_permanent (lp : Leach) (z : Zcr)
    (vlen : Pos → ℚ) (draw : ℕ → ℚ) (sample_idx : List ℕ) (s : Simulator)
    (i : ℕ) :
    ((((lp.run_round vlen draw s).2).nodes.getD i dnode).remaining_energy_j ≤
      (s.nodes.getD i dnode).remaining_energy_j ∧
     ((s.nodes.getD i dnode).is_alive = false →
      (((lp.run_round vlen draw s).2).nodes.getD i dnode).is_alive = false)) ∧
    ((((z.run_round vlen sample_idx s).2).nodes.getD i dnode).remaining_energy_j ≤
      (s.nodes.getD i dnode).remaining_energy_j ∧
     ((s.nodes.getD i dnode).is_alive = false →
      (((z.run_round vlen sample_idx s).2).nodes.getD i dnode).is_alive = false)) :=
  ⟨leach_run_round_nodesLE lp vlen draw s i,
   zcr_run_round_nodesLE z vlen sample_idx s i⟩

/-- Witness for C2: a two-node simulator where node 1 is dead at the start
of the round; both protocols keep it dead, and its energy never grows. -/
theorem round_energy_monotone_death_permanent_witness :
    ((((Leach.new (1 / 10)).run_round (fun _ => 0) (fun _ => 0)
        (Simulator.mk [{ dnode with is_alive := true, remaining_energy_j := 2 },
          dnode] 1 1)).2).nodes.getD 1 dnode).is_alive = false ∧
    ((((Zcr.new (1 / 10)).run_round (fun _ => 0) [0]
        (Simulator.mk [{ dnode with is_alive := true, remaining_energy_j := 2 },
          dnode] 1 1)).2).nodes.getD 1 dnode).is_alive = false :=
  ⟨(round_energy_monotone_death_permanent (Leach.new (1 / 10)) (Zcr.new (1 / 10))
      (fun _ => 0) (fun _ => 0) [0]
      (Simulator.mk [{ dnode with is_alive := true, remaining_energy_j := 2 },
        dnode] 1 1) 1).1.2 (by decide),
   (round_energy_monotone_death_permanent (Leach.new (1 / 10)) (Zcr.new (1 / 10))
      (fun _ => 0) (fun _ => 0) [0]
      (Simulator.mk [{ dnode with is_alive := true, remaining_energy_j := 2 },
        dnode] 1 1) 1).2.2 (by decide)⟩

/-! ### Claim C5 -/

/-- C5: for every bit count and distance, the transmit energy is
`bits·E_elec + bits·E_fs·d²` when `d ≤ threshold` and
`bits·E_elec + bits·E_mp·d⁴` when `d > threshold`; at `d` exactly equal to
the threshold the free-space formula applies. -/
theorem transmit_energy_model (data_size_bits distance_m : ℚ) :
    (distance_m ≤ FS_MULTIPATH_THRESHOLD_DISTANCE_M →
      calculate_transmit_energy data_size_bits distance_m =
        data_size_bits * ENERGY_PER_BIT_ELECTRONICS_J +
          data_size_bits * ENERGY_FREE_SPACE_AMP_J * distance_m ^ 2) ∧
    (FS_MULTIPATH_THRESHOLD_DISTANCE_M < distance_m →
      calculate_transmit_energy data_size_bits distance_m =
        data_size_bits * ENERGY_PER_BIT_ELECTRONICS_J +
          data_size_bits * ENERGY_MULTIPATH_AMP_J * distance_m ^ 4) ∧
    calculate_transmit_energy data_size_bits FS_MULTIPATH_THRESHOLD_DISTANCE_M =
      data_size_bits * ENERGY_PER_BIT_ELECTRONICS_J +
        data_size_bits * ENERGY_FREE_SPACE_AMP_J *
          FS_MULTIPATH_THRESHOLD_DISTANCE_M ^ 2 := by
  refine ⟨fun h => ?_, fun h => ?_, ?_⟩
  · simp only [calculate_transmit_energy]
    rw [if_pos h]
  · simp only [calculate_transmit_energy]
    rw [if_neg (not_le.mpr h)]
  · simp only [calculate_transmit_energy]
    rw [if_pos (le_refl _)]

/-- Witness for C5: both branches of `transmit_energy_model` at concrete
distances 50 (free-space) and 100 (multipath). -/
theorem transmit_energy_model_witness :
    calculate_transmit_energy 4000 50 =
      4000 * ENERGY_PER_BIT_ELECTRONICS_J +
        4000 * ENERGY_FREE_SPACE_AMP_J * 50 ^ 2 ∧
    calculate_transmit_energy 4000 100 =
      4000 * ENERGY_PER_BIT_ELECTRONICS_J +
        4000 * ENERGY_MULTIPATH_AMP_J * 100 ^ 4 :=
  ⟨(transmit_energy_model 4000 50).1
      (by norm_num [FS_MULTIPATH_THRESHOLD_DISTANCE_M]),
   (transmit_energy_model 4000 100).2.1
      (by norm_num [FS_MULTIPATH_THRESHOLD_DISTANCE_M])⟩

/-! ### Claim C4 -/

/-- C4: for `p ∈ (0,1]`, the recomputed LEACH threshold equals
`min(1, p / (1 − p·(r mod cycle_length)))`; the denominator is in fact
always strictly positive (so the guarded saturation-to-1 case of the claim
can never produce an invalid value, and holds vacuously). -/
theorem leach_election_threshold_formula (p : ℚ) (r : ℕ)
    (hp0 : 0 < p) (hp1 : p ≤ 1) :
    0 < 1 - p * ((r % (Leach.new p).cycle_length_rounds : ℕ) : ℚ) ∧
    ((Leach.new p).update_election_threshold r).election_threshold =
      min (p / (1 - p * ((r % (Leach.new p).cycle_length_rounds : ℕ) : ℚ))) 1 ∧
    (1 - p * ((r % (Leach.new p).cycle_length_rounds : ℕ) : ℚ) ≤ 0 →
      ((Leach.new p).update_election_threshold r).election_threshold = 1) := by
  have hprob : (Leach.new p).cluster_head_probability = p := rfl
  have hinv : (1 : ℚ) ≤ 1 / p := by
    rw [le_div_iff₀ hp0]; simpa using hp1
  have hfloor1 : 1 ≤ ⌊(1 : ℚ) / p⌋ := by
    rw [Int.le_floor]; exact_mod_cast hinv
  have hcyc : (Leach.new p).cycle_length_rounds = (⌊(1 : ℚ) / p⌋).toNat := rfl
  have hcyc1 : 1 ≤ (Leach.new p).cycle_length_rounds := by
    rw [hcyc]; omega
  have hcycle_le : (((Leach.new p).cycle_length_rounds : ℕ) : ℚ) ≤ 1 / p := by
    rw [hcyc]
    have h2 : ((⌊(1 : ℚ) / p⌋.toNat : ℕ) : ℚ) = ((⌊(1 : ℚ) / p⌋ : ℤ) : ℚ) := by
      exact_mod_cast Int.toNat_of_nonneg (by omega)
    rw [h2]
    exact Int.floor_le _
  have hmod : (r % (Leach.new p).cycle_length_rounds) ≤
      (Leach.new p).cycle_length_rounds - 1 := by
    have := Nat.mod_lt r (show 0 < (Leach.new p).cycle_length_rounds by omega)
    omega
  have hmodq : ((r % (Leach.new p).cycle_length_rounds : ℕ) : ℚ) ≤
      (((Leach.new p).cycle_length_rounds : ℕ) : ℚ) - 1 := by
    have h1 : ((r % (Leach.new p).cycle_length_rounds : ℕ) : ℚ) ≤
        (((Leach.new p).cycle_length_rounds - 1 : ℕ) : ℚ) := by
      exact_mod_cast hmod
    have h2 : (((Leach.new p).cycle_length_rounds - 1 : ℕ) : ℚ) =
        (((Leach.new p).cycle_length_rounds : ℕ) : ℚ) - 1 := by
      have := hcyc1; push_cast [Nat.cast_sub this]; ring
    linarith
  have hdenom : 0 < 1 - p * ((r % (Leach.new p).cycle_length_rounds : ℕ) : ℚ) := by
    have hb : p * ((r % (Leach.new p).cycle_length_rounds : ℕ) : ℚ) ≤
        p * ((((Leach.new p).cycle_length_rounds : ℕ) : ℚ) - 1) := by
      exact mul_le_mul_of_nonneg_left hmodq (le_of_lt hp0)
    have hc : p * ((((Leach.new p).cycle_length_rounds : ℕ) : ℚ) - 1) ≤
        p * (1 / p - 1) := by
      exact mul_le_mul_of_nonneg_left (by linarith) (le_of_lt hp0)
    have hd : p * (1 / p - 1) = 1 - p := by
      field_simp
    nlinarith
  refine ⟨hdenom, ?_, fun hle => absurd hdenom (by linarith)⟩
  simp only [Leach.update_election_threshold, hprob]
  rw [if_neg (by intro h0; linarith)]

/-- Witness for C4 at `p = 1/10`, round 5: the denominator is positive and
the threshold evaluates to `min ((1/10) / (1/2)) 1 = 1/5`. -/
theorem leach_election_threshold_formula_witness :
    0 < 1 - (1 / 10 : ℚ) * ((5 % (Leach.new (1 / 10)).cycle_length_rounds : ℕ) : ℚ) ∧
    ((Leach.new (1 / 10 : ℚ)).update_election_threshold 5).election_threshold =
      min ((1 / 10 : ℚ) /
        (1 - (1 / 10 : ℚ) * ((5 % (Leach.new (1 / 10)).cycle_length_rounds : ℕ) : ℚ))) 1 :=
  ⟨(leach_election_threshold_formula (1 / 10) 5 (by norm_num) (by norm_num)).1,
   (leach_election_threshold_formula (1 / 10) 5 (by norm_num) (by norm_num)).2.1⟩

/-! ### Claim C6 -/

/-- C6: for `p ∈ (0,1]` and a correct cached alive count, the desired
cluster count `k = ⌈p·alive_node_count⌉` computed by the ZCR round never
exceeds the length of the node list handed to `KMeans::fit` (so clamping
`k` to the number of input points is the identity, and the seed-sampling
precondition `k ≤ #nodes` always holds). -/
theorem zcr_cluster_count_within_bounds (p : ℚ) (s : Simulator)
    (hp0 : 0 < p) (hp1 : p ≤ 1)
    (hinv : s.alive_node_count = countAlive s.nodes) :
    zcrDesiredCH p s.alive_node_count ≤ s.nodes.length ∧
    min (zcrDesiredCH p s.alive_node_count) s.nodes.length =
      zcrDesiredCH p s.alive_node_count := by
  have hle : zcrDesiredCH p s.alive_node_count ≤ s.alive_node_count := by
    unfold zcrDesiredCH
    have hceil : ⌈p * (s.alive_node_count : ℚ)⌉ ≤ (s.alive_node_count : ℤ) := by
      rw [Int.ceil_le]
      push_cast
      exact mul_le_of_le_one_left (by positivity) hp1
    calc (⌈p * (s.alive_node_count : ℚ)⌉).toNat
        ≤ ((s.alive_node_count : ℤ)).toNat := Int.toNat_le_toNat hceil
      _ = s.alive_node_count := Int.toNat_natCast _
  have hlen : s.alive_node_count ≤ s.nodes.length := by
    rw [hinv]; exact countAlive_le_length s.nodes
  exact ⟨le_trans hle hlen, min_eq_left (le_trans hle hlen)⟩

/-- Witness for C6: a two-node simulator with one alive node and
`p = 1/10`; the desired CH count 1 is within the node-list length 2. -/
theorem zcr_cluster_count_within_bounds_witness :
    zcrDesiredCH (1 / 10)
        (Simulator.mk [dnode, { dnode with is_alive := true }] 0 1).alive_node_count ≤
      (Simulator.mk [dnode, { dnode with is_alive := true }] 0 1).nodes.length :=
  (zcr_cluster_count_within_bounds (1 / 10)
    (Simulator.mk [dnode, { dnode with is_alive := true }] 0 1)
    (by norm_num) (by norm_num) (by decide)).1

/-! ### Claim C9 -/

/-- C9: whenever the desired CH count `k = ⌈p·alive_node_count⌉` of a ZCR
round is zero (with the construction-validated `p > 0`), the round leaves
the protocol state and the whole simulator (nodes, counters) unchanged. -/
theorem zcr_zero_ch_round_is_noop (z : Zcr) (vlen : Pos → ℚ)
    (sample_idx : List ℕ) (s : Simulator)
    (hp : 0 < z.cluster_head_probability)
    (hk : zcrDesiredCH z.cluster_head_probability s.alive_node_count = 0) :
    z.run_round vlen sample_idx s = (z, s) := by
  have halive : s.alive_node_count = 0 := by
    by_contra hne
    have h1 : (1 : ℚ) ≤ (s.alive_node_count : ℚ) := by
      exact_mod_cast Nat.one_le_iff_ne_zero.mpr hne
    have hpos : 0 < z.cluster_head_probability * (s.alive_node_count : ℚ) :=
      mul_pos hp (by linarith)
    have hceil : 0 < ⌈z.cluster_head_probability * (s.alive_node_count : ℚ)⌉ :=
      Int.ceil_pos.mpr hpos
    unfold zcrDesiredCH at hk
    omega
  simp only [Zcr.run_round]
  rw [if_pos halive]

/-- Witness for C9: a one-dead-node simulator with `alive_node_count = 0`;
the desired CH count is 0 and the ZCR round returns the state unchanged. -/
theorem zcr_zero_ch_round_is_noop_witness :
    (Zcr.new (1 / 10)).run_round (fun _ => 0) [] (Simulator.mk [dnode] 3 0) =
      (Zcr.new (1 / 10), Simulator.mk [dnode] 3 0) :=
  zcr_zero_ch_round_is_noop (Zcr.new (1 / 10)) (fun _ => 0) []
    (Simulator.mk [dnode] 3 0) (by norm_num [Zcr.new])
    (by norm_num [zcrDesiredCH, Zcr.new])

/-! ### Claim C3 -/

/-- C3: processing one far-zone CH in the ZCR dissipation step.  In every
case the far CH first pays (receive + aggregation) × member count.  With no
near-zone CH it then pays the direct transmit cost to the base station and
no other node changes (and in particular the step completes).  When the
nearest near-zone CH is strictly closer than the base station, the far CH
pays the transmit cost for the relay distance and the near CH additionally
pays receive + aggregation.  When the relay distance is not smaller, the
far CH pays the direct transmit cost. -/
theorem far_zone_ch_dissipation_cases (vlen : Pos → ℚ) (zone_near : List ℕ)
    (ns : List Node) (far_ch_id : ℕ) (hfar : far_ch_id < ns.length) :
    (zone_near = [] →
      ((zcrFarStep vlen zone_near ns far_ch_id).getD far_ch_id dnode).remaining_energy_j =
        (ns.getD far_ch_id dnode).remaining_energy_j -
          (calculate_receive_energy DATA_PACKET_SIZE_BITS +
            calculate_aggregation_energy DATA_PACKET_SIZE_BITS) *
            ((ns.getD far_ch_id dnode).cluster_member_ids.length : ℚ) -
          calculate_transmit_energy DATA_PACKET_SIZE_BITS
            (ns.getD far_ch_id dnode).distance_to_base_station_m ∧
      ∀ j, j ≠ far_ch_id →
        (zcrFarStep vlen zone_near ns far_ch_id).getD j dnode = ns.getD j dnode) ∧
    (∀ nc d, find_nearest_near vlen ns far_ch_id zone_near = some (nc, d) →
      d < (ns.getD far_ch_id dnode).distance_to_base_station_m →
      nc ≠ far_ch_id → nc < ns.length →
      ((zcrFarStep vlen zone_near ns far_ch_id).getD far_ch_id dnode).remaining_energy_j =
        (ns.getD far_ch_id dnode).remaining_energy_j -
          (calculate_receive_energy DATA_PACKET_SIZE_BITS +
            calculate_aggregation_energy DATA_PACKET_SIZE_BITS) *
            ((ns.getD far_ch_id dnode).cluster_member_ids.length : ℚ) -
          calculate_transmit_energy DATA_PACKET_SIZE_BITS d ∧
      ((zcrFarStep vlen zone_near ns far_ch_id).getD nc dnode).remaining_energy_j =
        (ns.getD nc dnode).remaining_energy_j -
          (calculate_receive_energy DATA_PACKET_SIZE_BITS +
            calculate_aggregation_energy DATA_PACKET_SIZE_BITS) ∧
      ∀ j, j ≠ far_ch_id → j ≠ nc →
        (zcrFarStep vlen zone_near ns far_ch_id).getD j dnode = ns.getD j dnode) ∧
    (∀ nc d, find_nearest_near vlen ns far_ch_id zone_near = some (nc, d) →
      ¬ d < (ns.getD far_ch_id dnode).distance_to_base_station_m →
      ((zcrFarStep vlen zone_near ns far_ch_id).getD far_ch_id dnode).remaining_energy_j =
        (ns.getD far_ch_id dnode).remaining_energy_j -
          (calculate_receive_energy DATA_PACKET_SIZE_BITS +
            calculate_aggregation_energy DATA_PACKET_SIZE_BITS) *
            ((ns.getD far_ch_id dnode).cluster_member_ids.length : ℚ) -
          calculate_transmit_energy DATA_PACKET_SIZE_BITS
            (ns.getD far_ch_id dnode).distance_to_base_station_m ∧
      ∀ j, j ≠ far_ch_id →
        (zcrFarStep vlen zone_near ns far_ch_id).getD j dnode = ns.getD j dnode) := by
  refine ⟨fun hnil => ?_, fun nc d hfind hlt hne hnc => ?_,
    fun nc d hfind hge => ?_⟩
  · subst hnil
    constructor
    · simp only [zcrFarStep, find_nearest_near, List.foldl_nil]
      simp only [getD_updAt_self, length_updAt, hfar]
    · intro j hj
      simp only [zcrFarStep, find_nearest_near, List.foldl_nil]
      simp only [ne_eq, getD_updAt_ne, Ne.symm hj, not_false_eq_true]
  · refine ⟨?_, ?_, fun j hj hjnc => ?_⟩
    · simp only [zcrFarStep, hfind]
      simp only [ne_eq, getD_updAt_self, getD_updAt_ne, length_updAt, hfar,
        hlt, hne, Ne.symm hne, not_false_eq_true, if_true]
    · simp only [zcrFarStep, hfind]
      simp only [ne_eq, getD_updAt_self, getD_updAt_ne, length_updAt, hfar,
        hnc, hlt, hne, Ne.symm hne, not_false_eq_true, if_true]
    · simp only [zcrFarStep, hfind]
      simp only [ne_eq, getD_updAt_self, getD_updAt_ne, length_updAt, hfar,
        hlt, Ne.symm hj, Ne.symm hjnc, not_false_eq_true, if_true]
  · constructor
    · simp only [zcrFarStep, hfind]
      simp only [ne_eq, getD_updAt_self, getD_updAt_ne, length_updAt, hfar,
        hge, not_false_eq_true, if_false]
    · intro j hj
      simp only [zcrFarStep, hfind]
      simp only [ne_eq, getD_updAt_self, getD_updAt_ne, length_updAt, hfar,
        hge, Ne.symm hj, not_false_eq_true, if_false]

/-- Witness for C3: two coincident nodes, the far CH at index 0 (distance
10 to the sink) relaying through the near CH at index 1 at relay distance 5. -/
theorem far_zone_ch_dissipation_cases_witness :
    ((zcrFarStep (fun _ => 5) [1]
        [{ dnode with distance_to_base_station_m := 10, remaining_energy_j := 1 },
         { dnode with remaining_energy_j := 1 }] 0).getD 0 dnode).remaining_energy_j =
      ({ dnode with distance_to_base_station_m := 10, remaining_energy_j := 1 } :
          Node).remaining_energy_j -
        (calculate_receive_energy DATA_PACKET_SIZE_BITS +
          calculate_aggregation_energy DATA_PACKET_SIZE_BITS) * ((0 : ℕ) : ℚ) -
        calculate_transmit_energy DATA_PACKET_SIZE_BITS 5 := by
  have h := (far_zone_ch_dissipation_cases (fun _ => 5) [1]
    [{ dnode with distance_to_base_station_m := 10, remaining_energy_j := 1 },
     { dnode with remaining_energy_j := 1 }] 0 (by decide)).2.1 1 5
    (by decide) (by decide) (by decide) (by decide)
  simpa [dnode] using h.1

/-! ### Claim C7 -/

/-- C7 counterexample: the normalizer the ZCR score divides by is the
literal 707, which is strictly less than (hence not equal to)
`sqrt(area_width² + area_height²) = sqrt(500² + 500²) ≈ 707.107`. -/
theorem zcr_normalizer_not_exact_diagonal :
    ((zcrDiagonalNormalizer : ℚ) : ℝ) <
      Real.sqrt (((DEPLOYMENT_AREA_WIDTH_M : ℚ) : ℝ) ^ 2 +
        ((DEPLOYMENT_AREA_HEIGHT_M : ℚ) : ℝ) ^ 2) ∧
    ((zcrDiagonalNormalizer : ℚ) : ℝ) ≠
      Real.sqrt (((DEPLOYMENT_AREA_WIDTH_M : ℚ) : ℝ) ^ 2 +
        ((DEPLOYMENT_AREA_HEIGHT_M : ℚ) : ℝ) ^ 2) := by
  have hW : ((DEPLOYMENT_AREA_WIDTH_M : ℚ) : ℝ) = 500 := by
    norm_num [DEPLOYMENT_AREA_WIDTH_M]
  have hH : ((DEPLOYMENT_AREA_HEIGHT_M : ℚ) : ℝ) = 500 := by
    norm_num [DEPLOYMENT_AREA_HEIGHT_M]
  have hZ : ((zcrDiagonalNormalizer : ℚ) : ℝ) = 707 := by
    norm_num [zcrDiagonalNormalizer]
  rw [hW, hH, hZ]
  have hlt : (707 : ℝ) < Real.sqrt (500 ^ 2 + 500 ^ 2) := by
    rw [show ((500 : ℝ) ^ 2 + 500 ^ 2) = 500000 by norm_num]
    have h2 : (707 : ℝ) ^ 2 < 500000 := by norm_num
    exact (Real.lt_sqrt (by norm_num)).mpr h2
  exact ⟨hlt, ne_of_lt hlt⟩

/-- C7 as amended: the candidate score of an alive, non-depleted node
equals normalized remaining energy minus (distance to its cluster centroid
divided by the literal 707), and the selection step tracks exactly this
score (the stored best score becomes the max of the old best and it). -/
theorem zcr_score_uses_707_normalizer (vlen : Pos → ℚ) (cents : List Pos)
    (st : ZcrSelSt) (q : ℕ × ℕ)
    (ha : (st.nodes.getD q.1 dnode).is_alive = true)
    (he : ¬ (st.nodes.getD q.1 dnode).remaining_energy_j ≤ 0)
    (hq : q.2 < st.best_scores.length) :
    zcr_candidate_score vlen (reset_node_for_new_round (st.nodes.getD q.1 dnode))
        (cents.getD q.2 (0, 0)) =
      (st.nodes.getD q.1 dnode).remaining_energy_j / INITIAL_NODE_ENERGY_J -
        vlen (psub (st.nodes.getD q.1 dnode).position (cents.getD q.2 (0, 0))) /
          zcrDiagonalNormalizer ∧
    zcrDiagonalNormalizer = 707 ∧
    (zcrSelStep vlen cents st q).best_scores.getD q.2 ⊥ =
      max (st.best_scores.getD q.2 ⊥)
        ((zcr_candidate_score vlen
          (reset_node_for_new_round (st.nodes.getD q.1 dnode))
          (cents.getD q.2 (0, 0)) : WithBot ℚ)) := by
  refine ⟨rfl, rfl, ?_⟩
  simp only [zcrSelStep]
  split
  case isTrue hdead =>
    exact absurd (by simpa using hdead.2) he
  case isFalse h1 =>
    split
    case isTrue hdead2 =>
      rw [reset_node_is_alive] at hdead2
      rw [ha] at hdead2
      exact absurd hdead2 (by simp)
    case isFalse h2 =>
      split
      case isTrue hgt =>
        rw [getD_set_self _ _ _ _ hq]
        exact (max_eq_right (le_of_lt hgt)).symm
      case isFalse hng =>
        exact (max_eq_left (not_lt.mp hng)).symm

/-- Witness for C7's amended theorem: a fresh alive node in cluster 0. -/
theorem zcr_score_uses_707_normalizer_witness :
    (zcrSelStep (fun _ => 0) [(0, 0)]
        (ZcrSelSt.mk [{ dnode with is_alive := true, remaining_energy_j := 2 }]
          1 [⊥] [none]) (0, 0)).best_scores.getD 0 ⊥ =
      max ((ZcrSelSt.mk [{ dnode with is_alive := true, remaining_energy_j := 2 }]
          1 [⊥] [none]).best_scores.getD 0 ⊥)
        ((zcr_candidate_score (fun _ => 0)
          (reset_node_for_new_round
            ((ZcrSelSt.mk [{ dnode with is_alive := true, remaining_energy_j := 2 }]
              1 [⊥] [none]).nodes.getD 0 dnode)) ([(0, 0)].getD 0 (0, 0)) :
            WithBot ℚ)) :=
  (zcr_score_uses_707_normalizer (fun _ => 0) [(0, 0)]
    (ZcrSelSt.mk [{ dnode with is_alive := true, remaining_energy_j := 2 }]
      1 [⊥] [none]) (0, 0) (by decide) (by decide) (by decide)).2.2

/-! ### Claim C10 -/

set_option maxHeartbeats 1000000 in
/-- C10: in the concrete one-node scenario, for both protocols, the first
round drives the node's remaining energy strictly below zero while its
`is_alive` flag stays `true` and the alive count stays 1; only the next
round's per-node loop marks it dead and decrements the count, and its
(negative) energy is carried over unclamped. -/
theorem negative_energy_deferred_death :
    (((c10Leach1.2).nodes.getD 0 dnode).remaining_energy_j < 0 ∧
      ((c10Leach1.2).nodes.getD 0 dnode).is_alive = true ∧
      (c10Leach1.2).alive_node_count = 1) ∧
    (((c10Leach2.2).nodes.getD 0 dnode).is_alive = false ∧
      (c10Leach2.2).alive_node_count = 0 ∧
      ((c10Leach2.2).nodes.getD 0 dnode).remaining_energy_j =
        ((c10Leach1.2).nodes.getD 0 dnode).remaining_energy_j) ∧
    (((c10Zcr1.2).nodes.getD 0 dnode).remaining_energy_j < 0 ∧
      ((c10Zcr1.2).nodes.getD 0 dnode).is_alive = true ∧
      (c10Zcr1.2).alive_node_count = 1) ∧
    (((c10Zcr2.2).nodes.getD 0 dnode).is_alive = false ∧
      (c10Zcr2.2).alive_node_count = 0 ∧
      ((c10Zcr2.2).nodes.getD 0 dnode).remaining_energy_j =
        ((c10Zcr1.2).nodes.getD 0 dnode).remaining_energy_j) := by
  have hceil : (⌈(1 : ℚ) / 10⌉ : ℤ) = 1 := by
    rw [Int.ceil_eq_iff] <;> norm_num
  have hfit : (KMeans.new 1).fit c10Vlen [0]
      [{ id := 0, position := ((250 : ℚ), (250 : ℚ)),
         remaining_energy_j := 1 / 10000,
         is_alive := true, is_cluster_head := false, is_eligible_for_ch := true,
         distance_to_base_station_m := 0, cluster_head_id := none,
         cluster_member_ids := [] }] = KMeans.mk 1 [((250 : ℚ), (250 : ℚ))] [0] := by
    rw [show (KMeans.new 1).fit c10Vlen [0]
        [{ id := 0, position := ((250 : ℚ), (250 : ℚ)),
           remaining_energy_j := 1 / 10000,
           is_alive := true, is_cluster_head := false, is_eligible_for_ch := true,
           distance_to_base_station_m := 0, cluster_head_id := none,
           cluster_member_ids := [] }] =
      kmeansLoop c10Vlen
        [{ id := 0, position := ((250 : ℚ), (250 : ℚ)),
           remaining_energy_j := 1 / 10000,
           is_alive := true, is_cluster_head := false, is_eligible_for_ch := true,
           distance_to_base_station_m := 0, cluster_head_id := none,
           cluster_member_ids := [] }] (99 + 1)
        (KMeans.mk 1 [((250 : ℚ), (250 : ℚ))] [0]) from rfl]
    rw [kmeansLoop]
    norm_num [kmeansAssign, nearestCentroidIdx, KMeans.update_centroids, padd,
      pdivNat, psub, c10Vlen, dnode, EPS, List.enum, List.enumFrom,
      List.replicate, List.range_succ, List.range_zero, List.foldl_cons,
      List.foldl_nil]
  have hfit2 : (KMeans.new 1).fit c10Vlen [0]
      [{ id := 0, position := ((250 : ℚ), (250 : ℚ)),
         remaining_energy_j := -(1 / 10000),
         is_alive := true, is_cluster_head := true, is_eligible_for_ch := true,
         distance_to_base_station_m := 0, cluster_head_id := none,
         cluster_member_ids := [] }] = KMeans.mk 1 [((250 : ℚ), (250 : ℚ))] [0] := by
    rw [show (KMeans.new 1).fit c10Vlen [0]
        [{ id := 0, position := ((250 : ℚ), (250 : ℚ)),
           remaining_energy_j := -(1 / 10000),
           is_alive := true, is_cluster_head := true, is_eligible_for_ch := true,
           distance_to_base_station_m := 0, cluster_head_id := none,
           cluster_member_ids := [] }] =
      kmeansLoop c10Vlen
        [{ id := 0, position := ((250 : ℚ), (250 : ℚ)),
           remaining_energy_j := -(1 / 10000),
           is_alive := true, is_cluster_head := true, is_eligible_for_ch := true,
           distance_to_base_station_m := 0, cluster_head_id := none,
           cluster_member_ids := [] }] (99 + 1)
        (KMeans.mk 1 [((250 : ℚ), (250 : ℚ))] [0]) from rfl]
    rw [kmeansLoop]
    norm_num [kmeansAssign, nearestCentroidIdx, KMeans.update_centroids, padd,
      pdivNat, psub, c10Vlen, dnode, EPS, List.enum, List.enumFrom,
      List.replicate, List.range_succ, List.range_zero, List.foldl_cons,
      List.foldl_nil]
  refine ⟨?_, ?_, ?_, ?_⟩
  · norm_num [c10Leach1, c10Sim, c10Node, c10Vlen, c10Draw,
      Simulator.update_leach, Leach.run_round, Leach.new,
      Leach.update_election_threshold, leachPhase1Step, leachEligReset,
      reset_node_for_new_round, Leach.form_clusters, leachFormStep, nearest_ch,
      leachPhase3Step, updAt, dnode, calculate_transmit_energy,
      calculate_receive_energy, calculate_aggregation_energy,
      DATA_PACKET_SIZE_BITS, ENERGY_PER_BIT_ELECTRONICS_J,
      ENERGY_FREE_SPACE_AMP_J, ENERGY_MULTIPATH_AMP_J, ENERGY_AGGREGATION_J,
      FS_MULTIPATH_THRESHOLD_DISTANCE_M, min_def, List.range_succ,
      List.range_zero, List.foldl_append, List.foldl_cons, List.foldl_nil,
      countAlive, Nat.cast_one, Nat.cast_ofNat, show Int.toNat 10 = 10 from rfl]
  · norm_num [c10Leach1, c10Leach2, c10Sim, c10Node, c10Vlen, c10Draw,
      Simulator.update_leach, Leach.run_round, Leach.new,
      Leach.update_election_threshold, leachPhase1Step, leachEligReset,
      reset_node_for_new_round, Leach.form_clusters, leachFormStep, nearest_ch,
      leachPhase3Step, updAt, dnode, calculate_transmit_energy,
      calculate_receive_energy, calculate_aggregation_energy,
      DATA_PACKET_SIZE_BITS, ENERGY_PER_BIT_ELECTRONICS_J,
      ENERGY_FREE_SPACE_AMP_J, ENERGY_MULTIPATH_AMP_J, ENERGY_AGGREGATION_J,
      FS_MULTIPATH_THRESHOLD_DISTANCE_M, min_def, List.range_succ,
      List.range_zero, List.foldl_append, List.foldl_cons, List.foldl_nil,
      countAlive, Nat.cast_one, Nat.cast_ofNat, show Int.toNat 10 = 10 from rfl]
  · norm_num [c10Zcr1, c10Sim, c10Node, c10Vlen, Simulator.update_zcr,
      Zcr.run_round, Zcr.new, zcrDesiredCH, zcrSelect, zcrSelStep,
      zcr_candidate_score, zcrDiagonalNormalizer, INITIAL_NODE_ENERGY_J,
      Zcr.assign_zones, zcrZoneStep, Zcr.form_clusters, zcrFormStep,
      Zcr.dissipate_cluster_head_energy, zcrFarStep, zcrNearStep,
      find_nearest_near, reset_node_for_new_round, updAt, dnode,
      calculate_transmit_energy, calculate_receive_energy,
      calculate_aggregation_energy, DATA_PACKET_SIZE_BITS,
      ENERGY_PER_BIT_ELECTRONICS_J, ENERGY_FREE_SPACE_AMP_J,
      ENERGY_MULTIPATH_AMP_J, ENERGY_AGGREGATION_J,
      FS_MULTIPATH_THRESHOLD_DISTANCE_M, List.enum, List.enumFrom,
      List.replicate, List.foldl_cons, List.foldl_nil, countAlive,
      WithBot.bot_lt_coe, show Int.toNat 1 = 1 from rfl, hceil, hfit,
      List.filterMap_cons, List.filterMap_nil, id_eq, -Prod.mk_zero_zero]
  · norm_num [c10Zcr1, c10Zcr2, c10Sim, c10Node, c10Vlen, Simulator.update_zcr,
      Zcr.run_round, Zcr.new, zcrDesiredCH, zcrSelect, zcrSelStep,
      zcr_candidate_score, zcrDiagonalNormalizer, INITIAL_NODE_ENERGY_J,
      Zcr.assign_zones, zcrZoneStep, Zcr.form_clusters, zcrFormStep,
      Zcr.dissipate_cluster_head_energy, zcrFarStep, zcrNearStep,
      find_nearest_near, reset_node_for_new_round, updAt, dnode,
      calculate_transmit_energy, calculate_receive_energy,
      calculate_aggregation_energy, DATA_PACKET_SIZE_BITS,
      ENERGY_PER_BIT_ELECTRONICS_J, ENERGY_FREE_SPACE_AMP_J,
      ENERGY_MULTIPATH_AMP_J, ENERGY_AGGREGATION_J,
      FS_MULTIPATH_THRESHOLD_DISTANCE_M, List.enum, List.enumFrom,
      List.replicate, List.foldl_cons, List.foldl_nil, countAlive,
      WithBot.bot_lt_coe, show Int.toNat 1 = 1 from rfl, hceil, hfit, hfit2,
      List.filterMap_cons, List.filterMap_nil, id_eq, -Prod.mk_zero_zero]

/-! ### Claim C8 -/

lemma getD_replicate {α : Type} (n i : ℕ) (x d : α) :
    (List.replicate n x).getD i d = if i < n then x else d := by
  induction n generalizing i with
  | zero => simp
  | succ nn ih =>
    cases i with
    | zero => simp [List.replicate]
    | succ j =>
      simp only [List.replicate, List.getD_cons_succ, ih]
      by_cases h : j < nn
      · rw [if_pos h, if_pos (by omega)]
      · rw [if_neg h, if_neg (by omega)]

lemma zcrSelStep_best_length (vlen : Pos → ℚ) (cents : List Pos)
    (st : ZcrSelSt) (q : ℕ × ℕ) :
    (zcrSelStep vlen cents st q).best_scores.length = st.best_scores.length := by
  simp only [zcrSelStep]
  split
  · rfl
  · split
    · rfl
    · split
      · simp
      · rfl

lemma zcrSelStep_sel_length (vlen : Pos → ℚ) (cents : List Pos)
    (st : ZcrSelSt) (q : ℕ × ℕ) :
    (zcrSelStep vlen cents st q).selected.length = st.selected.length := by
  simp only [zcrSelStep]
  split
  · rfl
  · split
    · rfl
    · split
      · simp
      · rfl

lemma zcrSelStep_nodes_getD_ne (vlen : Pos → ℚ) (cents : List Pos)
    (st : ZcrSelSt) (q : ℕ × ℕ) (j : ℕ) (h : q.1 ≠ j) :
    (zcrSelStep vlen cents st q).nodes.getD j dnode = st.nodes.getD j dnode := by
  simp only [zcrSelStep]
  split
  · exact getD_set_ne _ _ _ _ _ h
  · split
    · exact getD_set_ne _ _ _ _ _ h
    · split
      · exact getD_set_ne _ _ _ _ _ h
      · exact getD_set_ne _ _ _ _ _ h

lemma zcrSelStep_invariant (vlen : Pos → ℚ) (centroids : List Pos)
    (assignments : List ℕ) (ns0 : List Node) (k m : ℕ) (st : ZcrSelSt)
    (hlb : st.best_scores.length = k) (hls : st.selected.length = k)
    (hnode : st.nodes.getD m dnode = ns0.getD m dnode)
    (hinv : selInv vlen centroids assignments ns0 k m st.best_scores st.selected) :
    selInv vlen centroids assignments ns0 k (m + 1)
      (zcrSelStep vlen centroids st (m, assignments.getD m 0)).best_scores
      (zcrSelStep vlen centroids st (m, assignments.getD m 0)).selected := by
  have hscore : zcr_candidate_score vlen
      (reset_node_for_new_round (ns0.getD m dnode))
      (centroids.getD (assignments.getD m 0) (0, 0)) =
      zcrScoreOf vlen centroids assignments ns0 m := rfl
  simp only [zcrSelStep, hnode]
  split
  case isTrue hdead =>
    have hnc : ¬ zcrCandidate ns0 m := fun hcand => hcand.2 hdead.2
    intro c hc
    refine ⟨fun hn => ⟨((hinv c hc).1 hn).1, fun j hj hcl => ?_⟩, fun i hi => ?_⟩
    · rcases Nat.lt_succ_iff_lt_or_eq.mp hj with hj' | rfl
      · exact ((hinv c hc).1 hn).2 j hj' hcl
      · exact hnc
    · obtain ⟨hb, hcand, him, hicl, hfirst, hmax⟩ := (hinv c hc).2 i hi
      refine ⟨hb, hcand, by omega, hicl, hfirst, fun j hj hcl hcand2 => ?_⟩
      rcases Nat.lt_succ_iff_lt_or_eq.mp hj with hj' | rfl
      · exact hmax j hj' hcl hcand2
      · exact absurd hcand2 hnc
  case isFalse h1 =>
    split
    case isTrue hdead2 =>
      have hnc : ¬ zcrCandidate ns0 m := fun hcand => by
        rw [show (reset_node_for_new_round (ns0.getD m dnode)).is_alive =
          (ns0.getD m dnode).is_alive from rfl, hcand.1] at hdead2
        exact absurd hdead2 (by simp)
      intro c hc
      refine ⟨fun hn => ⟨((hinv c hc).1 hn).1, fun j hj hcl => ?_⟩, fun i hi => ?_⟩
      · rcases Nat.lt_succ_iff_lt_or_eq.mp hj with hj' | rfl
        · exact ((hinv c hc).1 hn).2 j hj' hcl
        · exact hnc
      · obtain ⟨hb, hcand, him, hicl, hfirst, hmax⟩ := (hinv c hc).2 i hi
        refine ⟨hb, hcand, by omega, hicl, hfirst, fun j hj hcl hcand2 => ?_⟩
        rcases Nat.lt_succ_iff_lt_or_eq.mp hj with hj' | rfl
        · exact hmax j hj' hcl hcand2
        · exact absurd hcand2 hnc
    case isFalse h2 =>
      have halive : (ns0.getD m dnode).is_alive = true := by
        cases hb : (ns0.getD m dnode).is_alive with
        | false => exact absurd hb h2
        | true => rfl
      have hnle : ¬ (ns0.getD m dnode).remaining_energy_j ≤ 0 :=
        fun hle => h1 ⟨halive, hle⟩
      have hcand : zcrCandidate ns0 m := ⟨halive, hnle⟩
      split
      case isTrue hgt =>
        intro c hc
        by_cases hcx : c = assignments.getD m 0
        · subst hcx
          constructor
          · intro hn
            rw [getD_set_self _ _ _ _ (by omega)] at hn
            exact absurd hn (by simp)
          · intro i hi
            rw [getD_set_self _ _ _ _ (by omega)] at hi
            have hieq : m = i := by
              have := Option.some.inj hi
              omega
            subst hieq
            rw [getD_set_self _ _ _ _ (by omega), hscore]
            refine ⟨rfl, hcand, by omega, rfl, fun j hj hcl hcand2 => ?_,
              fun j hj hcl hcand2 => ?_⟩
            · rw [hscore] at hgt
              rcases (hinv _ hc).1 with hnonecase
              cases hsel : st.selected.getD (assignments.getD m 0) none with
              | none => exact absurd hcand2 ((hnonecase hsel).2 j hj hcl)
              | some i0 =>
                obtain ⟨hb, _, _, _, _, hmax⟩ := (hinv _ hc).2 i0 hsel
                rw [hb] at hgt
                have hlt := WithBot.coe_lt_coe.mp hgt
                exact lt_of_le_of_lt (hmax j hj hcl hcand2) hlt
            · rcases Nat.lt_succ_iff_lt_or_eq.mp hj with hj' | rfl
              · rw [hscore] at hgt
                cases hsel : st.selected.getD (assignments.getD m 0) none with
                | none => exact absurd hcand2 (((hinv _ hc).1 hsel).2 j hj' hcl)
                | some i0 =>
                  obtain ⟨hb, _, _, _, _, hmax⟩ := (hinv _ hc).2 i0 hsel
                  rw [hb] at hgt
                  have hlt := WithBot.coe_lt_coe.mp hgt
                  exact le_of_lt (lt_of_le_of_lt (hmax j hj' hcl hcand2) hlt)
              · exact le_refl _
        · constructor
          · intro hn
            rw [getD_set_ne _ _ _ _ _ (fun hh => hcx hh.symm)] at hn
            rw [getD_set_ne _ _ _ _ _ (fun hh => hcx hh.symm)]
            refine ⟨((hinv c hc).1 hn).1, fun j hj hcl => ?_⟩
            rcases Nat.lt_succ_iff_lt_or_eq.mp hj with hj' | rfl
            · exact ((hinv c hc).1 hn).2 j hj' hcl
            · exact absurd hcl (fun hh => hcx hh.symm)
          · intro i hi
            rw [getD_set_ne _ _ _ _ _ (fun hh => hcx hh.symm)] at hi
            rw [getD_set_ne _ _ _ _ _ (fun hh => hcx hh.symm)]
            obtain ⟨hb, hcand2, him, hicl, hfirst, hmax⟩ := (hinv c hc).2 i hi
            refine ⟨hb, hcand2, by omega, hicl, hfirst, fun j hj hcl hcand3 => ?_⟩
            rcases Nat.lt_succ_iff_lt_or_eq.mp hj with hj' | rfl
            · exact hmax j hj' hcl hcand3
            · exact absurd hcl (fun hh => hcx hh.symm)
      case isFalse hng =>
        intro c hc
        by_cases hcx : c = assignments.getD m 0
        · subst hcx
          constructor
          · intro hn
            have hbot := ((hinv _ hc).1 hn).1
            rw [hbot] at hng
            exact absurd (WithBot.bot_lt_coe _) hng
          · intro i hi
            obtain ⟨hb, hcand2, him, hicl, hfirst, hmax⟩ := (hinv _ hc).2 i hi
            refine ⟨hb, hcand2, by omega, hicl, hfirst, fun j hj hcl hcand3 => ?_⟩
            rcases Nat.lt_succ_iff_lt_or_eq.mp hj with hj' | rfl
            · exact hmax j hj' hcl hcand3
            · rw [hb] at hng
              have := not_lt.mp hng
              rw [hscore] at this
              exact WithBot.coe_le_coe.mp this
        · constructor
          · intro hn
            refine ⟨((hinv c hc).1 hn).1, fun j hj hcl => ?_⟩
            rcases Nat.lt_succ_iff_lt_or_eq.mp hj with hj' | rfl
            · exact ((hinv c hc).1 hn).2 j hj' hcl
            · exact absurd hcl (fun hh => hcx hh.symm)
          · intro i hi
            obtain ⟨hb, hcand2, him, hicl, hfirst, hmax⟩ := (hinv c hc).2 i hi
            refine ⟨hb, hcand2, by omega, hicl, hfirst, fun j hj hcl hcand3 => ?_⟩
            rcases Nat.lt_succ_iff_lt_or_eq.mp hj with hj' | rfl
            · exact hmax j hj' hcl hcand3
            · exact absurd hcl (fun hh => hcx hh.symm)

lemma zcrSel_fold_invariant (vlen : Pos → ℚ) (centroids : List Pos)
    (assignments : List ℕ) (ns0 : List Node) (k : ℕ) :
    ∀ (a : List ℕ) (m : ℕ) (st : ZcrSelSt),
    assignments.drop m = a →
    st.best_scores.length = k → st.selected.length = k →
    (∀ j, m ≤ j → st.nodes.getD j dnode = ns0.getD j dnode) →
    selInv vlen centroids assignments ns0 k m st.best_scores st.selected →
    ((List.enumFrom m a).foldl (zcrSelStep vlen centroids) st).best_scores.length = k ∧
    ((List.enumFrom m a).foldl (zcrSelStep vlen centroids) st).selected.length = k ∧
    selInv vlen centroids assignments ns0 k (m + a.length)
      ((List.enumFrom m a).foldl (zcrSelStep vlen centroids) st).best_scores
      ((List.enumFrom m a).foldl (zcrSelStep vlen centroids) st).selected := by
  intro a
  induction a with
  | nil =>
    intro m st _ hlb hls _ hinv
    simpa using ⟨hlb, hls, hinv⟩
  | cons x a' ih =>
    intro m st hdrop hlb hls hnodes hinv
    have hx : assignments.getD m 0 = x := by
      have h1 : assignments[m]? = some x := by
        rw [← List.head?_drop, hdrop]
        rfl
      simp [List.getD, h1]
    have hdrop2 : assignments.drop (m + 1) = a' := by
      rw [← List.tail_drop, hdrop]
      rfl
    have henum : List.enumFrom m (x :: a') = (m, x) :: List.enumFrom (m + 1) a' := rfl
    rw [henum, List.foldl_cons]
    rw [show ((m, x) : ℕ × ℕ) = (m, assignments.getD m 0) by rw [hx]]
    have hrec := ih (m + 1) (zcrSelStep vlen centroids st (m, assignments.getD m 0))
      hdrop2
      (by rw [zcrSelStep_best_length]; exact hlb)
      (by rw [zcrSelStep_sel_length]; exact hls)
      (fun j hj => by
        rw [zcrSelStep_nodes_getD_ne vlen centroids st _ j (by simp; omega)]
        exact hnodes j (by omega))
      (zcrSelStep_invariant vlen centroids assignments ns0 k m st hlb hls
        (hnodes m le_rfl) hinv)
    refine ⟨hrec.1, hrec.2.1, ?_⟩
    have harith : m + (x :: a').length = m + 1 + a'.length := by
      simp
      omega
    rw [harith]
    exact hrec.2.2

/-- C8: in the ZCR selection loop, for every in-range cluster index, if
the cluster has any alive, non-depleted candidate then some node is
selected for it, and any node that ends up selected is a candidate of that
cluster that scores at least every candidate of the cluster, with every
earlier-scanned (lower-index) candidate scoring strictly below it — so on
an exact tie the first-scanned node stays selected (strict `>` compare). -/
theorem zcr_selection_first_strict_max (vlen : Pos → ℚ) (centroids : List Pos)
    (assignments : List ℕ) (ns0 : List Node) (alive_node_count k c : ℕ)
    (hc : c < k) :
    ((∃ j, j < assignments.length ∧ assignments.getD j 0 = c ∧
        zcrCandidate ns0 j) →
      ∃ i, (zcrSelect vlen centroids assignments ns0 alive_node_count
        k).selected.getD c none = some i) ∧
    (∀ i, (zcrSelect vlen centroids assignments ns0 alive_node_count
        k).selected.getD c none = some i →
      zcrCandidate ns0 i ∧ i < assignments.length ∧
      assignments.getD i 0 = c ∧
      (∀ j, j < assignments.length → assignments.getD j 0 = c →
        zcrCandidate ns0 j →
        zcrScoreOf vlen centroids assignments ns0 j ≤
          zcrScoreOf vlen centroids assignments ns0 i) ∧
      (∀ j, j < i → assignments.getD j 0 = c → zcrCandidate ns0 j →
        zcrScoreOf vlen centroids assignments ns0 j <
          zcrScoreOf vlen centroids assignments ns0 i)) := by
  have h0 : selInv vlen centroids assignments ns0 k 0
      (List.replicate k ⊥) (List.replicate k none) := by
    intro c' hc'
    constructor
    · intro _
      refine ⟨by rw [getD_replicate]; split <;> rfl, fun j hj => absurd hj (by omega)⟩
    · intro i hi
      rw [getD_replicate] at hi
      split at hi <;> exact absurd hi (by simp)
  have hmain := zcrSel_fold_invariant vlen centroids assignments ns0 k
    assignments 0
    { nodes := ns0, alive_node_count := alive_node_count,
      best_scores := List.replicate k ⊥, selected := List.replicate k none }
    rfl (by simp) (by simp) (fun j _ => rfl) h0
  obtain ⟨_, _, hinv⟩ := hmain
  have hzs : (zcrSelect vlen centroids assignments ns0 alive_node_count
      k).selected = ((List.enumFrom 0 assignments).foldl
        (zcrSelStep vlen centroids)
        { nodes := ns0, alive_node_count := alive_node_count,
          best_scores := List.replicate k ⊥,
          selected := List.replicate k none }).selected := rfl
  rw [hzs]
  have hcinv := hinv c hc
  constructor
  · rintro ⟨j, hj, hcl, hcand⟩
    cases hsel : ((List.enumFrom 0 assignments).foldl (zcrSelStep vlen centroids)
        { nodes := ns0, alive_node_count := alive_node_count,
          best_scores := List.replicate k ⊥,
          selected := List.replicate k none }).selected.getD c none with
    | none => exact absurd hcand ((hcinv.1 hsel).2 j (by omega) hcl)
    | some i => exact ⟨i, rfl⟩
  · intro i hi
    obtain ⟨_, hcand, him, hicl, hfirst, hmax⟩ := hcinv.2 i hi
    exact ⟨hcand, by omega, hicl,
      fun j hj hcl hcand2 => hmax j (by omega) hcl hcand2, hfirst⟩

/-- Witness for C8: a single alive node in cluster 0 is a candidate, so it
gets selected. -/
theorem zcr_selection_first_strict_max_witness :
    ∃ i, (zcrSelect (fun _ => 0) [((0 : ℚ), (0 : ℚ))] [0]
      [{ dnode with is_alive := true, remaining_energy_j := 2 }] 1
      1).selected.getD 0 none = some i :=
  (zcr_selection_first_strict_max (fun _ => 0) [((0 : ℚ), (0 : ℚ))] [0]
    [{ dnode with is_alive := true, remaining_energy_j := 2 }] 1 1 0
    (by omega)).1
    ⟨0, by simp, rfl, by decide, by norm_num⟩
